import Mathlib

/-!
Shallow embedding of the agentrem trigger-evaluation / budget-allocation
engine and its watch loop, translated from the TypeScript sources
(src/core.ts merged into src/date-parser.ts, src/watch.ts, src/check-watch.ts,
src/types.ts, src/db.ts).

Modelling conventions:
- Timestamps are `Nat` (milliseconds).  The source stores ISO strings in the
  fixed format YYYY-MM-DDTHH:MM:SS produced by dtToIso, whose lexicographic
  order agrees with chronological order, so SQL string comparison on them is
  embedded as `≤` on `Nat`.
- SQL NULL comparison semantics: `col <= x` is false when col is NULL, which
  is embedded as a match on `Option Nat` (see `dueLe`).
- JS floating-point thresholds `budget * 0.6` and `budget * 0.85` with an
  integer left-hand side are embedded exactly over naturals as
  `lhs * 10 ≤ budget * 6` and `lhs * 100 ≤ budget * 85`.
- External command execution (execFileSync for condition checks, RegExp for
  keyword patterns, coreGc failures injected by the environment) is modelled
  by an oracle structure; a `none` outcome stands for the thrown exception
  (failure, non-zero exit, or the 10 s timeout) that the source catches.
- JS string operations are modelled over `String.data` (`List Char`); JS
  string length (UTF-16 units) is modelled as character count.
- The store (better-sqlite3 database) is a list of reminder rows plus a list
  of history rows; UPDATE ... WHERE id=? is a map over the list, INSERT is an
  append, and the fresh id that SQLite generates for an INSERT is passed in
  as an explicit argument.
-/

namespace Agentrem

/-- types.ts TriggerType. -/
inductive TriggerType where
  | time | keyword | condition | session | heartbeat | manual
deriving DecidableEq, Repr

/-- types.ts ReminderStatus. -/
inductive ReminderStatus where
  | active | snoozed | completed | expired | failed | deleted
deriving DecidableEq, Repr

/-- types.ts KeywordConfig.match. -/
inductive MatchMode where
  | any | all | regex
deriving DecidableEq, Repr

/-- types.ts RecurRule.unit: d / w / m. -/
inductive RecurUnit where
  | d | w | m
deriving DecidableEq, Repr

/-- types.ts RecurRule (stored as JSON in reminders.recur_rule). -/
structure RecurRule where
  interval : Nat
  unit : RecurUnit
deriving DecidableEq, Repr

/-- Parsed reminders.trigger_config (stored as JSON): KeywordConfig for
keyword triggers, ConditionConfig for condition triggers. -/
inductive TriggerConfig where
  | kw (keywords : List String) (mode : MatchMode)
  | cond (check : String) (expects : String)
deriving DecidableEq, Repr

/-- types.ts Reminder / the reminders table row (db.ts schema). -/
structure Reminder where
  id : String
  content : String
  context : Option String := none
  trigger_type : TriggerType := .time
  trigger_at : Option Nat := none
  trigger_config : Option TriggerConfig := none
  priority : Nat := 3
  tags : Option String := none
  category : Option String := none
  status : ReminderStatus := .active
  snoozed_until : Option Nat := none
  decay_at : Option Nat := none
  fire_count : Nat := 0
  last_fired : Option Nat := none
  max_fires : Option Nat := none
  recur_rule : Option RecurRule := none
  recur_parent_id : Option String := none
  depends_on : Option String := none
  source : String := "agent"
  agent : String := "main"
  created_at : Nat := 0
  updated_at : Nat := 0
  completed_at : Option Nat := none
  notes : Option String := none
deriving DecidableEq, Repr

/-- types.ts HistoryEntry / the history table row.  old_data and new_data are
JSON snapshots in the source, embedded structurally. -/
structure HistoryEntry where
  reminder_id : String
  action : String
  old_data : Option Reminder := none
  new_data : Option Reminder := none
  timestamp : Nat := 0
  source : Option String := none
deriving DecidableEq, Repr

/-- The persistent store: the reminders table and the history table. -/
structure Store where
  reminders : List Reminder
  history : List HistoryEntry
deriving DecidableEq, Repr

/-- db.ts recordHistory: the history row appended for one mutation. -/
def recordHistory (rid action : String) (oldData newData : Option Reminder)
    (nowMs : Nat) (src : Option String) : HistoryEntry :=
  { reminder_id := rid, action := action, old_data := oldData, new_data := newData,
    timestamp := nowMs, source := src }

/-- SQL comparison `col <= now` where col may be NULL: false on NULL. -/
def dueLe (o : Option Nat) (nowMs : Nat) : Bool :=
  match o with
  | some v => decide (v ≤ nowMs)
  | none => false

/-- JS String.prototype.trim, over the character list. -/
def jsTrim (s : String) : String :=
  ⟨((s.data.dropWhile Char.isWhitespace).reverse.dropWhile Char.isWhitespace).reverse⟩

/-- JS String.prototype.toLowerCase, over the character list. -/
def jsLower (s : String) : String :=
  ⟨s.data.map Char.toLower⟩

/-- JS String.prototype.includes: pat occurs as a contiguous substring. -/
def listContains (pat : List Char) : List Char → Bool
  | [] => pat.isEmpty
  | c :: rest => pat.isPrefixOf (c :: rest) || listContains pat rest

/-- text.includes(pat) on strings. -/
def strIncludes (s pat : String) : Bool :=
  listContains pat.data s.data

/-- date-parser.ts truncate: a string of length ≤ maxLen is returned whole,
otherwise slice(0, maxLen-1) with a one-character ellipsis appended.  The
null/empty input branch of the source returns the empty string, which
coincides with the first branch here. -/
def truncate (s : String) (maxLen : Nat) : String :=
  if s.length ≤ maxLen then s else ⟨s.data.take (maxLen - 1) ++ ['…']⟩

/-- One day in milliseconds. -/
def msPerDay : Nat := 86400000

/-- Milliseconds per recurrence unit: day, week (7 days), month approximated
as 30 days (documented limitation of nextRecurrence). -/
def unitMs : RecurUnit → Nat
  | .d => msPerDay
  | .w => 7 * msPerDay
  | .m => 30 * msPerDay

/-- date-parser.ts nextRecurrence: next occurrence computed from the previous
due time (or now when there is none) advanced by interval × unit.  The source
reads `rule.interval || 1`, so a zero interval behaves as 1. -/
def nextRecurrence (triggerAt : Option Nat) (rule : RecurRule) (nowMs : Nat) : Nat :=
  let base := triggerAt.getD nowMs
  let interval := if rule.interval = 0 then 1 else rule.interval
  base + interval * unitMs rule.unit

-- ── coreCheck ─────────────────────────────────────────────────────────────

/-- core.ts CheckOptions.  `type` is the comma-separated trigger-kind filter,
already split; `budget` is in abstract units (tokens). -/
structure CheckOptions where
  type : Option (List TriggerType) := none
  text : Option String := none
  budget : Option Nat := none
  agent : Option String := none
  escalate : Bool := false
  dryRun : Bool := false

/-- core.ts overflowCounts: one counter per priority 1..5. -/
structure OverflowCounts where
  p1 : Nat := 0
  p2 : Nat := 0
  p3 : Nat := 0
  p4 : Nat := 0
  p5 : Nat := 0
deriving DecidableEq, Repr

/-- core.ts CheckResult. -/
structure CheckResult where
  included : List Reminder
  overflowCounts : OverflowCounts
  totalTriggered : Nat
deriving DecidableEq, Repr

/-- Oracle for the external world used during one coreCheck call: `exec c`
is the trimmed-later stdout of running the condition check command c with
execFileSync (10 s timeout), or `none` when the command failed, exited
non-zero, or timed out (execFileSync throws and coreCheck catches);
`regexTest pat text` is `none` when `new RegExp(pat, i-flag)` throws on a
malformed pattern (caught and skipped), otherwise the match outcome. -/
structure CheckEnv where
  exec : String → Option String
  regexTest : String → String → Option Bool

/-- `opts.agent || 'main'`: absent or empty agent falls back to main. -/
def agentOf (opts : CheckOptions) : String :=
  match opts.agent with
  | some a => if a = "" then "main" else a
  | none => "main"

/-- `(opts.budget || 800) * 4`: budget units to character ceiling; an absent
or zero budget falls back to 800 units. -/
def budgetChars (opts : CheckOptions) : Nat :=
  (match opts.budget with
   | some b => if b = 0 then 800 else b
   | none => 800) * 4

/-- coreCheck step 1: reactivate a snoozed reminder whose snooze expired
(status → active, snooze cleared, updated_at stamped). -/
def reactivateOne (nowMs : Nat) (agent : String) (r : Reminder) : Reminder :=
  if r.status = .snoozed ∧ dueLe r.snoozed_until nowMs ∧ r.agent = agent then
    { r with status := .active, snoozed_until := none, updated_at := nowMs }
  else r

/-- coreCheck step 2 selection: decay_at ≤ now AND status active AND agent. -/
def isDecayed (nowMs : Nat) (agent : String) (r : Reminder) : Bool :=
  dueLe r.decay_at nowMs && decide (r.status = .active) && decide (r.agent = agent)

/-- coreCheck step 2 row update: status → expired, updated_at stamped. -/
def expireOne (nowMs : Nat) (agent : String) (r : Reminder) : Reminder :=
  if isDecayed nowMs agent r then { r with status := .expired, updated_at := nowMs }
  else r

/-- History row recorded for an expired reminder: old_data is the pre-update
row, new_data is null, originator system. -/
def expiredEntry (nowMs : Nat) (r : Reminder) : HistoryEntry :=
  recordHistory r.id "expired" (some r) none nowMs (some "system")

def h48Ms : Nat := 48 * 3600 * 1000

def h24Ms : Nat := 24 * 3600 * 1000

/-- coreCheck step 3, first UPDATE: priority 3 time-triggered active
reminders with trigger_at ≤ now − 48 h get priority 2. -/
def escalate48 (nowMs : Nat) (agent : String) (r : Reminder) : Reminder :=
  if r.priority = 3 ∧ r.trigger_type = .time ∧ dueLe r.trigger_at (nowMs - h48Ms) ∧
      r.status = .active ∧ r.agent = agent then
    { r with priority := 2, updated_at := nowMs }
  else r

/-- coreCheck step 3, second UPDATE (runs after the first on the already
updated table): priority 2 time-triggered active reminders with
trigger_at ≤ now − 24 h get priority 1. -/
def escalate24 (nowMs : Nat) (agent : String) (r : Reminder) : Reminder :=
  if r.priority = 2 ∧ r.trigger_type = .time ∧ dueLe r.trigger_at (nowMs - h24Ms) ∧
      r.status = .active ∧ r.agent = agent then
    { r with priority := 1, updated_at := nowMs }
  else r

/-- coreCheck step 3: both escalation UPDATEs, in order, when the escalate
flag is set. -/
def escalatePhase (escalate : Bool) (nowMs : Nat) (agent : String)
    (rs : List Reminder) : List Reminder :=
  if escalate then (rs.map (escalate48 nowMs agent)).map (escalate24 nowMs agent)
  else rs

/-- Dependency gate: no depends_on link, or the linked id is in the completed
set. -/
def checkDependency (completedIds : List String) (r : Reminder) : Bool :=
  match r.depends_on with
  | none => true
  | some d => completedIds.contains d

/-- SQL filter shared by the gather queries: trigger_type, active status and
agent. -/
def isActiveOfType (tt : TriggerType) (agent : String) (r : Reminder) : Bool :=
  decide (r.trigger_type = tt) && decide (r.status = .active) && decide (r.agent = agent)

/-- Keyword matching per match mode over the parsed trigger_config.  A row
whose config is missing or not keyword-shaped has no keywords and never
matches.  Malformed regex patterns (oracle none) are skipped. -/
def keywordMatches (env : CheckEnv) (text : String) (r : Reminder) : Bool :=
  match r.trigger_config with
  | some (.kw keywords mode) =>
    match mode with
    | .any => keywords.any (fun k => strIncludes (jsLower text) (jsLower k))
    | .all => keywords.all (fun k => strIncludes (jsLower text) (jsLower k))
    | .regex => keywords.any (fun k => (env.regexTest k text).getD false)
  | _ => false

/-- Condition matching: run the configured check command through the oracle;
the trimmed output must equal the expected string, and any failure outcome is
non-matching.  A row whose config is not condition-shaped fails the execution
and is likewise non-matching. -/
def conditionMatches (env : CheckEnv) (r : Reminder) : Bool :=
  match r.trigger_config with
  | some (.cond c expects) =>
    match env.exec c with
    | some out => decide (jsTrim out = expects)
    | none => false
  | _ => false

/-- typesFilter membership: absent filter admits every kind. -/
def requested (opts : CheckOptions) (tt : TriggerType) : Bool :=
  match opts.type with
  | none => true
  | some ts => ts.contains tt

/-- coreCheck step 4: gather triggered reminders, one pass per requested
trigger kind, each gated by the dependency check against the completed set
(computed once, across all agents).  Manual triggers are never gathered. -/
def gatherTriggered (env : CheckEnv) (nowMs : Nat) (opts : CheckOptions)
    (agent : String) (rs : List Reminder) : List Reminder :=
  let completedIds := (rs.filter (fun r => decide (r.status = .completed))).map (·.id)
  let timeT := if requested opts .time then
      rs.filter (fun r => isActiveOfType .time agent r && dueLe r.trigger_at nowMs &&
        checkDependency completedIds r)
    else []
  let kwT := match opts.text with
    | some text => if requested opts .keyword then
        rs.filter (fun r => isActiveOfType .keyword agent r &&
          checkDependency completedIds r && keywordMatches env text r)
      else []
    | none => []
  let condT := if requested opts .condition then
      rs.filter (fun r => isActiveOfType .condition agent r &&
        checkDependency completedIds r && conditionMatches env r)
    else []
  let sessT := if requested opts .session then
      rs.filter (fun r => isActiveOfType .session agent r && checkDependency completedIds r)
    else []
  let hbT := if requested opts .heartbeat then
      rs.filter (fun r => isActiveOfType .heartbeat agent r && checkDependency completedIds r)
    else []
  timeT ++ kwT ++ condT ++ sessT ++ hbT

/-- The comparator of `triggered.sort((a, b) => a.priority - b.priority)`:
a stable ascending sort by priority, modelled with insertion sort (stable). -/
def priorityLe (a b : Reminder) : Prop := a.priority ≤ b.priority

instance : DecidableRel priorityLe := fun a b => Nat.decLe a.priority b.priority

instance : IsTotal Reminder priorityLe := ⟨fun a b => Nat.le_total a.priority b.priority⟩

instance : IsTrans Reminder priorityLe := ⟨fun _ _ _ h1 h2 => Nat.le_trans h1 h2⟩

/-- coreCheck dedup loop: keep the first occurrence of each id (seen set). -/
def dedupeById : List Reminder → List String → List Reminder
  | [], _ => []
  | r :: rs, seen =>
    if seen.contains r.id then dedupeById rs seen
    else r :: dedupeById rs (r.id :: seen)

/-- charLimits from coreCheck: content cap per priority. -/
def charLimit : Nat → Nat
  | 1 => 200
  | 2 => 100
  | 3 => 60
  | _ => 0

/-- Size contributed by one candidate: truncated content plus the fixed
30-character metadata overhead. -/
def entrySize (r : Reminder) : Nat :=
  (truncate r.content (charLimit r.priority)).length + 30

/-- The budget loop of coreCheck, processing candidates in order with the
running character total `used`: priority 5 dropped silently, priority 4
always overflow, priority 1 always included, priority 2 included while
used + size ≤ budget × 0.6, priority 3 while used + size ≤ budget × 0.85
(thresholds embedded exactly, see header).  A priority outside 1..5 falls
through every branch of the source loop and is dropped uncounted. -/
def allocGo (budget : Nat) : Nat → List Reminder → List Reminder × OverflowCounts
  | _, [] => ([], {})
  | used, r :: rs =>
    if r.priority = 5 then allocGo budget used rs
    else if r.priority = 4 then
      let p := allocGo budget used rs
      (p.1, { p.2 with p4 := p.2.p4 + 1 })
    else
      let size := entrySize r
      if r.priority = 1 then
        let p := allocGo budget (used + size) rs
        (r :: p.1, p.2)
      else if r.priority = 2 then
        if (used + size) * 10 ≤ budget * 6 then
          let p := allocGo budget (used + size) rs
          (r :: p.1, p.2)
        else
          let p := allocGo budget used rs
          (p.1, { p.2 with p2 := p.2.p2 + 1 })
      else if r.priority = 3 then
        if (used + size) * 100 ≤ budget * 85 then
          let p := allocGo budget (used + size) rs
          (r :: p.1, p.2)
        else
          let p := allocGo budget used rs
          (p.1, { p.2 with p3 := p.2.p3 + 1 })
      else allocGo budget used rs

/-- coreCheck budget system entry point (running total starts at 0). -/
def budgetAllocate (budget : Nat) (rs : List Reminder) : List Reminder × OverflowCounts :=
  allocGo budget 0 rs

/-- Fire-count UPDATE applied to the row with the included snapshot id:
fire_count from the snapshot plus one, last_fired and updated_at stamped. -/
def fireOne (nowMs : Nat) (r : Reminder) (x : Reminder) : Reminder :=
  if x.id = r.id then
    { x with fire_count := r.fire_count + 1, last_fired := some nowMs, updated_at := nowMs }
  else x

/-- `rem.max_fires && newFire >= rem.max_fires`: a NULL or zero cap is falsy
and never triggers auto-completion. -/
def capHit (r : Reminder) (newFire : Nat) : Bool :=
  match r.max_fires with
  | some m => !decide (m = 0) && decide (m ≤ newFire)
  | none => false

/-- Auto-completion UPDATE: status → completed, completed_at and updated_at
stamped. -/
def completeOne (nowMs : Nat) (rid : String) (x : Reminder) : Reminder :=
  if x.id = rid then
    { x with status := .completed, completed_at := some nowMs, updated_at := nowMs }
  else x

/-- One iteration of the fire-count loop for an included snapshot r: bump the
fire count, and when the cap is hit also complete the row and record a
history entry (old_data the pre-loop snapshot, new_data the refetched row,
originator system). -/
def fireStep (nowMs : Nat) (s : Store) (r : Reminder) : Store :=
  let newFire := r.fire_count + 1
  let rs1 := s.reminders.map (fireOne nowMs r)
  if capHit r newFire then
    let rs2 := rs1.map (completeOne nowMs r.id)
    let after := rs2.find? (fun x => decide (x.id = r.id))
    let e := recordHistory r.id "completed" (some r) after nowMs (some "system")
    { reminders := rs2, history := s.history ++ [e] }
  else { s with reminders := rs1 }

/-- coreCheck step 5: the fire-count loop over every included reminder. -/
def firePhase (nowMs : Nat) (included : List Reminder) (s : Store) : Store :=
  included.foldl (fireStep nowMs) s

/-- core.ts coreCheck: the full evaluation pipeline.  Returns the store as
left by the call together with the CheckResult.  Steps: 1 reactivate expired
snoozes, 2 expire decayed reminders (recording history), 3 escalate when the
flag is set, 4 gather triggered reminders per requested kind with dependency
gating, early return on an empty gather, then stable priority sort, dedup by
id, greedy budget allocation, and (unless dryRun) the fire-count loop. -/
def coreCheck (env : CheckEnv) (nowMs : Nat) (db : Store) (opts : CheckOptions) :
    Store × CheckResult :=
  let agent := agentOf opts
  let budget := budgetChars opts
  let rs1 := db.reminders.map (reactivateOne nowMs agent)
  let hist1 := db.history ++ (rs1.filter (isDecayed nowMs agent)).map (expiredEntry nowMs)
  let rs2 := rs1.map (expireOne nowMs agent)
  let rs3 := escalatePhase opts.escalate nowMs agent rs2
  let triggered := gatherTriggered env nowMs opts agent rs3
  if triggered.isEmpty then
    ({ reminders := rs3, history := hist1 },
     { included := [], overflowCounts := {}, totalTriggered := 0 })
  else
    let deduped := dedupeById (List.insertionSort priorityLe triggered) []
    let p := budgetAllocate budget deduped
    let s3 : Store := { reminders := rs3, history := hist1 }
    let s4 := if opts.dryRun then s3 else firePhase nowMs p.1 s3
    (s4, { included := p.1, overflowCounts := p.2, totalTriggered := deduped.length })

-- ── coreComplete ──────────────────────────────────────────────────────────

/-- db.ts findReminder: exact id match first, then unique-prefix match; an
ambiguous prefix throws. -/
def findReminder (rs : List Reminder) (rid : String) : Except String (Option Reminder) :=
  match rs.find? (fun r => decide (r.id = rid)) with
  | some r => .ok (some r)
  | none =>
    match rs.filter (fun r => rid.data.isPrefixOf r.id.data) with
    | [r] => .ok (some r)
    | [] => .ok none
    | _ => .error "Ambiguous ID"

/-- core.ts CompleteResult. -/
structure CompleteResult where
  completed : Reminder
  nextRec : Option Reminder
deriving DecidableEq, Repr

/-- The successor row INSERTed by coreComplete for a recurring reminder:
all non-temporal fields cloned, trigger_at at the next occurrence,
recur_parent_id flattened to the chain root, and the schema defaults for the
unlisted columns (active status, fire_count 0, fresh timestamps). -/
def successorOf (rem : Reminder) (rule : RecurRule) (newId : String) (nowMs : Nat) :
    Reminder :=
  { id := newId, content := rem.content, context := rem.context,
    trigger_type := rem.trigger_type,
    trigger_at := some (nextRecurrence rem.trigger_at rule nowMs),
    trigger_config := rem.trigger_config, priority := rem.priority,
    tags := rem.tags, category := rem.category, status := .active,
    snoozed_until := none, decay_at := rem.decay_at, fire_count := 0,
    last_fired := none, max_fires := rem.max_fires, recur_rule := rem.recur_rule,
    recur_parent_id := some (rem.recur_parent_id.getD rem.id),
    depends_on := rem.depends_on, source := rem.source, agent := rem.agent,
    created_at := nowMs, updated_at := nowMs, completed_at := none, notes := none }

/-- notes handling of coreComplete: new notes are appended to existing notes
on their own line; without new notes the existing notes are kept. -/
def mergeNotes (notes oldNotes : Option String) : Option String :=
  match notes, oldNotes with
  | some n, some old => some (old ++ "\n" ++ n)
  | some n, none => some n
  | none, old => old

/-- The UPDATE applied by coreComplete to the row with the resolved id:
status completed, completed_at and updated_at stamped, notes merged. -/
def completeUpd (nowMs : Nat) (rid : String) (finalNotes : Option String)
    (x : Reminder) : Reminder :=
  if x.id = rid then
    { x with
        status := .completed, completed_at := some nowMs,
        updated_at := nowMs, notes := finalNotes }
  else x

/-- The body of coreComplete once the id is resolved: INSERT the recurrence
successor when a rule is present (recording a created history entry,
originator system), then mark the resolved reminder completed and record a
completed history entry. -/
def coreCompleteGo (nowMs : Nat) (newId : String) (db : Store)
    (notes : Option String) : Option Reminder → Except String (Store × CompleteResult)
  | none => .error "Reminder not found"
  | some rem =>
    let ins :=
      match rem.recur_rule with
      | some rule =>
        let succ := successorOf rem rule newId nowMs
        (db.reminders ++ [succ],
         db.history ++ [recordHistory newId "created" none (some succ) nowMs (some "system")],
         some succ)
      | none => (db.reminders, db.history, none)
    let rs2 := ins.1.map (completeUpd nowMs rem.id (mergeNotes notes rem.notes))
    match rs2.find? (fun x => decide (x.id = rem.id)) with
    | none => .error "Reminder not found"
    | some newData =>
      let hist2 := ins.2.1 ++
        [recordHistory rem.id "completed" (some rem) (some newData) nowMs (some "agent")]
      .ok ({ reminders := rs2, history := hist2 },
           { completed := newData, nextRec := ins.2.2 })

/-- core.ts coreComplete: resolve the id (an unresolved id is the thrown
NotFound error), then run the completion body.  The fresh id SQLite would
generate for the INSERT is the newId argument. -/
def coreComplete (nowMs : Nat) (newId : String) (db : Store) (rid : String)
    (notes : Option String) : Except String (Store × CompleteResult) := do
  let rem? ← findReminder db.reminders rid
  coreCompleteGo nowMs newId db notes rem?

-- ── coreSnooze ────────────────────────────────────────────────────────────

/-- The body of coreSnooze once the id is resolved: set status snoozed with
the resolved snooze-until instant, stamp updated_at, record a snoozed
history entry. -/
def coreSnoozeGo (nowMs snoozeUntil : Nat) (db : Store) :
    Option Reminder → Except String (Store × Reminder)
  | none => .error "Reminder not found"
  | some rem =>
    let rs2 := db.reminders.map (fun x =>
      if x.id = rem.id then
        { x with status := .snoozed, snoozed_until := some snoozeUntil, updated_at := nowMs }
      else x)
    match rs2.find? (fun x => decide (x.id = rem.id)) with
    | none => .error "Reminder not found"
    | some newData =>
      .ok ({ reminders := rs2,
             history := db.history ++
               [recordHistory rem.id "snoozed" (some rem) (some newData) nowMs (some "agent")] },
           newData)

/-- core.ts coreSnooze: resolve the id, then snooze.  The until /
for-duration argument parsing is outside the core; the already resolved
instant is passed in. -/
def coreSnooze (nowMs snoozeUntil : Nat) (db : Store) (rid : String) :
    Except String (Store × Reminder) := do
  let rem? ← findReminder db.reminders rid
  coreSnoozeGo nowMs snoozeUntil db rem?

-- ── coreEdit ──────────────────────────────────────────────────────────────

/-- core.ts EditOptions; the due and decay date strings are parsed outside
the core, so the resolved instants are carried directly. -/
structure EditOptions where
  content : Option String := none
  context : Option String := none
  priority : Option Nat := none
  trigger_at : Option Nat := none
  tags : Option String := none
  addTags : Option String := none
  removeTags : Option String := none
  category : Option String := none
  decay_at : Option Nat := none
  maxFires : Option Nat := none
  keywords : Option String := none
  agent : Option String := none

/-- Comma-split, trimmed, blank entries dropped (the tag list parsing used by
coreEdit and the keyword option). -/
def splitTrim (s : String) : List String :=
  ((s.splitOn ",").map jsTrim).filter (fun t => decide (t ≠ ""))

/-- JS Set-style dedup keeping first insertions. -/
def dedupStr : List String → List String → List String
  | [], _ => []
  | t :: ts, seen =>
    if seen.contains t then dedupStr ts seen
    else t :: dedupStr ts (t :: seen)

instance : IsTotal String (· ≤ ·) := ⟨fun a b => le_total a b⟩

instance : IsTrans String (· ≤ ·) := ⟨fun _ _ _ h1 h2 => le_trans h1 h2⟩

/-- `[...set].sort().join(',')` over a deduplicated tag set. -/
def joinSorted (ts : List String) : String :=
  String.intercalate "," (List.insertionSort (· ≤ ·) (dedupStr ts []))

/-- The updates record assembled by coreEdit for the tags column: an explicit
tags option, then a truthy addTags option (union with existing tags), then a
truthy removeTags option (difference), later writers overriding earlier
ones. -/
def tagsUpdate (opts : EditOptions) (rem : Reminder) : Option String :=
  let u0 := opts.tags
  let u1 := match opts.addTags with
    | some s => if s = "" then u0 else
        some (joinSorted (splitTrim (rem.tags.getD "") ++ splitTrim s))
    | none => u0
  match opts.removeTags with
  | some s => if s = "" then u1 else
      some (joinSorted ((dedupStr (splitTrim (rem.tags.getD "")) []).filter
        (fun t => !(splitTrim s).contains t)))
  | none => u1

/-- The keyword option replaces the keywords of the existing trigger_config
(an absent or non-keyword config contributes no keywords and match mode
any). -/
def keywordsUpdate (ks : String) (cfg : Option TriggerConfig) : TriggerConfig :=
  match cfg with
  | some (.kw _ mode) => .kw ((ks.splitOn ",").map jsTrim) mode
  | _ => .kw ((ks.splitOn ",").map jsTrim) .any

/-- Whether the updates record of coreEdit is non-empty (truthiness of the
addTags / removeTags strings included). -/
def editHasChanges (opts : EditOptions) : Bool :=
  opts.content.isSome || opts.context.isSome || opts.priority.isSome ||
  opts.trigger_at.isSome || opts.tags.isSome ||
  (match opts.addTags with | some s => !decide (s = "") | none => false) ||
  (match opts.removeTags with | some s => !decide (s = "") | none => false) ||
  opts.category.isSome || opts.decay_at.isSome || opts.maxFires.isSome ||
  opts.keywords.isSome || opts.agent.isSome

/-- Field changes applied by the UPDATE of coreEdit to the row x, with the
values computed from the resolved reminder rem. -/
def applyEdit (nowMs : Nat) (opts : EditOptions) (rem : Reminder) (x : Reminder) :
    Reminder :=
  { x with
    content := opts.content.getD x.content,
    context := match opts.context with | some c => some c | none => x.context,
    priority := opts.priority.getD x.priority,
    trigger_at := match opts.trigger_at with | some t => some t | none => x.trigger_at,
    tags := match tagsUpdate opts rem with | some t => some t | none => x.tags,
    category := match opts.category with | some c => some c | none => x.category,
    decay_at := match opts.decay_at with | some d => some d | none => x.decay_at,
    max_fires := match opts.maxFires with | some m => some m | none => x.max_fires,
    trigger_config := match opts.keywords with
      | some ks => some (keywordsUpdate ks rem.trigger_config)
      | none => x.trigger_config,
    agent := opts.agent.getD x.agent,
    updated_at := nowMs }

/-- The body of coreEdit once the id is resolved: validate the priority
option (1..5), reject an empty change set, apply the UPDATE (stamping
updated_at), record an updated history entry. -/
def coreEditGo (nowMs : Nat) (db : Store) (opts : EditOptions) :
    Option Reminder → Except String (Store × Reminder)
  | none => .error "Reminder not found"
  | some rem =>
    if (match opts.priority with
        | some p => decide (p < 1 ∨ p > 5)
        | none => false) then .error "Priority must be 1-5"
    else if editHasChanges opts then
      let rs2 := db.reminders.map (fun x =>
        if x.id = rem.id then applyEdit nowMs opts rem x else x)
      match rs2.find? (fun x => decide (x.id = rem.id)) with
      | none => .error "Reminder not found"
      | some newData =>
        .ok ({ reminders := rs2,
               history := db.history ++
                 [recordHistory rem.id "updated" (some rem) (some newData) nowMs (some "agent")] },
             newData)
    else .error "No changes specified"

/-- core.ts coreEdit: resolve the id, then edit. -/
def coreEdit (nowMs : Nat) (db : Store) (rid : String) (opts : EditOptions) :
    Except String (Store × Reminder) := do
  let rem? ← findReminder db.reminders rid
  coreEditGo nowMs db opts rem?

-- ── coreDelete ────────────────────────────────────────────────────────────

/-- core.ts DeleteOptions; olderThan is in days. -/
structure DeleteOptions where
  id : Option String := none
  permanent : Bool := false
  status : Option ReminderStatus := none
  olderThan : Option Nat := none

/-- Bulk-delete row filter: matching status, optionally updated_at at or
before the olderThan cutoff. -/
def bulkDeleteMatch (nowMs : Nat) (st : ReminderStatus) (olderThan : Option Nat)
    (r : Reminder) : Bool :=
  decide (r.status = st) &&
  (match olderThan with
   | some days => decide (r.updated_at ≤ nowMs - days * msPerDay)
   | none => true)

/-- The single-id body of coreDelete once the id is resolved: a permanent
delete removes the row and records a deleted history entry with old_data
only; a soft delete sets status deleted and records old and new data. -/
def coreDeleteGo (nowMs : Nat) (db : Store) (permanent : Bool) :
    Option Reminder → Except String (Store × Nat × Bool)
  | none => .error "Reminder not found"
  | some rem =>
    if permanent then
      .ok ({ reminders := db.reminders.filter (fun r => !decide (r.id = rem.id)),
             history := db.history ++
               [recordHistory rem.id "deleted" (some rem) none nowMs (some "agent")] },
           1, true)
    else
      let rs2 := db.reminders.map (fun x =>
        if x.id = rem.id then { x with status := .deleted, updated_at := nowMs } else x)
      match rs2.find? (fun x => decide (x.id = rem.id)) with
      | none => .error "Reminder not found"
      | some newData =>
        .ok ({ reminders := rs2,
               history := db.history ++
                 [recordHistory rem.id "deleted" (some rem) (some newData) nowMs (some "agent")] },
             1, false)

/-- core.ts coreDelete.  The bulk branch (status given) counts the matches
and either DELETEs them or soft-deletes them, recording no history; the
single-id branch resolves the id and deletes that reminder. -/
def coreDelete (nowMs : Nat) (db : Store) (opts : DeleteOptions) :
    Except String (Store × Nat × Bool) := do
  match opts.status with
  | some st =>
    let m := bulkDeleteMatch nowMs st opts.olderThan
    let count := (db.reminders.filter m).length
    if opts.permanent then
      .ok ({ db with reminders := db.reminders.filter (fun r => !m r) }, count, true)
    else
      .ok ({ db with reminders := db.reminders.map (fun r =>
              if m r then { r with status := .deleted, updated_at := nowMs } else r) },
           count, false)
  | none =>
    match opts.id with
    | none => .error "Reminder ID required"
    | some rid =>
      let rem? ← findReminder db.reminders rid
      coreDeleteGo nowMs db opts.permanent rem?

-- ── coreGc ────────────────────────────────────────────────────────────────

/-- core.ts coreGc (non-dry-run as the watch loop calls it): DELETE the
completed / expired / deleted rows whose updated_at is at or before the
cutoff, together with their history rows. -/
def coreGc (nowMs : Nat) (olderThanDays : Nat) (db : Store) : Store × Nat :=
  let cutoff := nowMs - olderThanDays * msPerDay
  let isOld := fun (r : Reminder) =>
    decide (r.status = .completed ∨ r.status = .expired ∨ r.status = .deleted) &&
    decide (r.updated_at ≤ cutoff)
  let rows := db.reminders.filter isOld
  if rows.isEmpty then (db, 0)
  else
    let ids := rows.map (·.id)
    ({ reminders := db.reminders.filter (fun r => !ids.contains r.id),
       history := db.history.filter (fun h => !ids.contains h.reminder_id) },
     rows.length)

-- ── watch loop ────────────────────────────────────────────────────────────

def DEDUP_COOLDOWN_MS : Nat := 5 * 60 * 1000

def DEFAULT_GC_INTERVAL_MS : Nat := 24 * 60 * 60 * 1000

/-- watch.ts WatchState: last-notified timestamp per reminder id, plus the
timestamp of the last successful garbage collection (absent reads as 0). -/
structure WatchSt where
  lastNotified : String → Option Nat
  lastGc : Option Nat := none

/-- watch.ts WatchOptions (the fields the cycle model uses): cooldown is in
seconds, gcIntervalMs in milliseconds. -/
structure WatchOptions where
  agent : Option String := none
  gcIntervalMs : Option Nat := none
  cooldown : Option Nat := none

/-- watch.ts shouldNotify: true when the id was never notified or the
cooldown has elapsed since its last notification (JS numeric subtraction,
hence the Int cast). -/
def shouldNotify (st : WatchSt) (rid : String) (nowMs : Nat) (cooldownMs : Nat) : Bool :=
  match st.lastNotified rid with
  | none => true
  | some last => decide ((cooldownMs : Int) ≤ (nowMs : Int) - (last : Int))

/-- watch.ts markNotified: record the notification timestamp for the id. -/
def markNotified (st : WatchSt) (rid : String) (nowMs : Nat) : WatchSt :=
  { st with lastNotified := fun i => if i = rid then some nowMs else st.lastNotified i }

/-- The notification loop of runCheckCycle over the included reminders: a
reminder outside its cooldown is dispatched (notification plus the optional
fire-and-forget on-fire hook, neither of which can throw) and marked
notified; one inside its cooldown is skipped.  A dispatch is represented by
membership in the returned notified list. -/
def notifyPass (cooldownMs nowMs : Nat) (st : WatchSt) :
    List Reminder → List Reminder × WatchSt
  | [] => ([], st)
  | r :: rest =>
    if shouldNotify st r.id nowMs cooldownMs then
      let p := notifyPass cooldownMs nowMs (markNotified st r.id nowMs) rest
      (r :: p.1, p.2)
    else notifyPass cooldownMs nowMs st rest

/-- The gc-due test of runCheckCycle: now − (lastGc ?? 0) ≥ gc interval. -/
def gcDue (st : WatchSt) (opts : WatchOptions) (nowMs : Nat) : Bool :=
  decide ((opts.gcIntervalMs.getD DEFAULT_GC_INTERVAL_MS : Int) ≤
    (nowMs : Int) - (st.lastGc.getD 0 : Int))

/-- The periodic-gc step of runCheckCycle: when due, try coreGc; on success
advance lastGc to now, and on a thrown failure (gcFails) catch it, keep the
state and store untouched, and continue the tick. -/
def gcStep (gcFails : Bool) (st : WatchSt) (opts : WatchOptions) (nowMs : Nat)
    (db : Store) : Store × WatchSt :=
  if gcDue st opts nowMs then
    if gcFails then (db, st)
    else ((coreGc nowMs 30 db).1, { st with lastGc := some nowMs })
  else (db, st)

/-- The pipeline-and-dispatch part of runCheckCycle: coreCheck over kinds
time, heartbeat, session, condition with escalation enabled, then the
cooldown-filtered notification loop. -/
def tickBody (cenv : CheckEnv) (st : WatchSt) (opts : WatchOptions) (nowMs : Nat)
    (db : Store) : List Reminder × WatchSt × Store :=
  let p := coreCheck cenv nowMs db
    { type := some [.time, .heartbeat, .session, .condition],
      agent := some (opts.agent.getD "main"), escalate := true }
  let cooldownMs := match opts.cooldown with
    | some c => c * 1000
    | none => DEDUP_COOLDOWN_MS
  let n := notifyPass cooldownMs nowMs st p.2.included
  (n.1, n.2, p.1)

/-- watch.ts runCheckCycle: the periodic-gc step followed by the pipeline and
the notification loop; returns the notified reminders, the watch state and
the store as left by the tick. -/
def runCheckCycle (cenv : CheckEnv) (gcFails : Bool) (st : WatchSt)
    (opts : WatchOptions) (nowMs : Nat) (db : Store) :
    List Reminder × WatchSt × Store :=
  let g := gcStep gcFails st opts nowMs db
  tickBody cenv g.2 opts nowMs g.1

-- ── check-watch ───────────────────────────────────────────────────────────

/-- The ORDER BY priority, trigger_at of queryDueReminder (both columns
non-null on the filtered rows; an absent trigger_at reads as 0 only to make
the relation total). -/
def dueOrder (a b : Reminder) : Prop :=
  a.priority < b.priority ∨ (a.priority = b.priority ∧ a.trigger_at.getD 0 ≤ b.trigger_at.getD 0)

instance : DecidableRel dueOrder := fun a b => by
  unfold dueOrder
  exact inferInstance

instance : IsTotal Reminder dueOrder := by
  constructor
  intro a b
  unfold dueOrder
  omega

instance : IsTrans Reminder dueOrder := by
  constructor
  intro a b c h1 h2
  unfold dueOrder at *
  omega

/-- check-watch.ts queryDueReminder: with no requested types return null
without touching the store; otherwise SELECT the first (by priority then
trigger_at) active agent-matching row of a requested type with a non-null
trigger_at at or before now.  The store is returned as the call leaves it:
the query only reads. -/
def queryDueReminder (nowMs : Nat) (agent : String) (types : List TriggerType)
    (s : Store) : Store × Option Reminder :=
  if types.isEmpty then (s, none)
  else
    let due := s.reminders.filter (fun r =>
      decide (r.status = .active) && decide (r.agent = agent) &&
      types.contains r.trigger_type && r.trigger_at.isSome && dueLe r.trigger_at nowMs)
    (s, (List.insertionSort dueOrder due).head?)

/-- check-watch.ts checkWatch, modelled over an explicit finite schedule of
poll instants (first poll immediate, then every 5 s until the timeout or a
signal ends the schedule): poll until a due reminder appears; an exhausted
schedule resolves with no reminder. -/
def checkWatchRun (agent : String) (types : List TriggerType) :
    List Nat → Store → Store × Option Reminder
  | [], s => (s, none)
  | t :: ts, s =>
    let p := queryDueReminder t agent types s
    match p.2 with
    | some r => (p.1, some r)
    | none => checkWatchRun agent types ts p.1

-- ── Claim-side definitions and concrete instances ─────────────────────────

/-- Content cap per priority as the claim states it: 200 / 100 / 60 / 0 / 0
characters for priorities 1..5. -/
def claimCap : Nat → Nat
  | 1 => 200
  | 2 => 100
  | 3 => 60
  | _ => 0

/-- Contributed size as the claim states it: min(content length, cap) plus
the fixed 30-character metadata overhead. -/
def claimEntrySize (r : Reminder) : Nat :=
  min r.content.length (claimCap r.priority) + 30

/-- Budget allocation written from the words of the claim, to be compared
with the allocation loop embedded from the source: candidates in order with
a running size total against the ceiling; every priority-5 candidate
excluded and never counted; every priority-4 candidate excluded and counted;
priority 1 always included; priority 2 included while the running total
stays within 60 percent of the ceiling, else counted; priority 3 within 85
percent, else counted; each counted entry contributing
min(content length, cap) + 30. -/
def claimAllocC1 (ceiling : Nat) : Nat → List Reminder → List Reminder × OverflowCounts
  | _, [] => ([], {})
  | total, r :: rs =>
    if r.priority = 5 then claimAllocC1 ceiling total rs
    else if r.priority = 4 then
      let p := claimAllocC1 ceiling total rs
      (p.1, { p.2 with p4 := p.2.p4 + 1 })
    else if r.priority = 1 then
      let p := claimAllocC1 ceiling (total + claimEntrySize r) rs
      (r :: p.1, p.2)
    else if r.priority = 2 then
      if (total + claimEntrySize r) * 10 ≤ ceiling * 6 then
        let p := claimAllocC1 ceiling (total + claimEntrySize r) rs
        (r :: p.1, p.2)
      else
        let p := claimAllocC1 ceiling total rs
        (p.1, { p.2 with p2 := p.2.p2 + 1 })
    else if r.priority = 3 then
      if (total + claimEntrySize r) * 100 ≤ ceiling * 85 then
        let p := claimAllocC1 ceiling (total + claimEntrySize r) rs
        (r :: p.1, p.2)
      else
        let p := claimAllocC1 ceiling total rs
        (p.1, { p.2 with p3 := p.2.p3 + 1 })
    else claimAllocC1 ceiling total rs

/-- The pipeline transformation of the reminders table performed by the
first three steps of coreCheck (reactivation, expiry, escalation), named for
the lemmas below. -/
def preRems (nowMs : Nat) (agent : String) (esc : Bool) (rs : List Reminder) :
    List Reminder :=
  escalatePhase esc nowMs agent
    ((rs.map (reactivateOne nowMs agent)).map (expireOne nowMs agent))

/-- Oracle in which every external command fails and every pattern is
malformed. -/
def cenv0 : CheckEnv := { exec := fun _ => none, regexTest := fun _ _ => none }

/-- A priority-3 time-triggered reminder due at instant 0. -/
def remC2 : Reminder :=
  { id := "a", content := "old reminder", trigger_type := .time,
    trigger_at := some 0, priority := 3, status := .active }

def stC2 : Store := { reminders := [remC2], history := [] }

/-- The reminder fields that the fire-count phase of coreCheck writes:
fire_count, last_fired, completed_at. -/
def frameC3 (r : Reminder) : Nat × Option Nat × Option Nat :=
  (r.fire_count, r.last_fired, r.completed_at)

/-- A snoozed reminder whose snooze expired at instant 0, not yet due. -/
def remC3 : Reminder :=
  { id := "b", content := "snoozed one", trigger_type := .time,
    trigger_at := some 999999, priority := 3, status := .snoozed,
    snoozed_until := some 0 }

def stC3 : Store := { reminders := [remC3], history := [] }

/-- A condition-triggered reminder expecting the exact output ok. -/
def remC4 : Reminder :=
  { id := "c", content := "conditional", trigger_type := .condition,
    trigger_config := some (.cond "cmd" "ok"), priority := 3, status := .active }

def stC4 : Store := { reminders := [remC4], history := [] }

/-- Oracle in which the command cmd prints ok with a trailing newline. -/
def cenvC4 : CheckEnv :=
  { exec := fun c => if c = "cmd" then some "ok\n" else none,
    regexTest := fun _ _ => none }

/-- A daily-recurring reminder due at instant 500. -/
def remC5 : Reminder :=
  { id := "r5", content := "daily", trigger_type := .time, trigger_at := some 500,
    priority := 3, status := .active, recur_rule := some { interval := 1, unit := .d } }

def stC5 : Store := { reminders := [remC5], history := [] }

/-- An overdue reminder with a fire cap of 1. -/
def remC6 : Reminder :=
  { id := "f", content := "fire once", trigger_type := .time, trigger_at := some 0,
    priority := 3, status := .active, max_fires := some 1 }

def stC6 : Store := { reminders := [remC6], history := [] }

/-- Reminder for the snooze witness. -/
def remC7 : Reminder :=
  { id := "s", content := "to snooze", trigger_type := .time, trigger_at := some 0,
    priority := 3, status := .active }

def stC7 : Store := { reminders := [remC7], history := [] }

/-- The row value produced by one iteration of the fire-count loop for the
snapshot r itself: the fire-count update, followed by the auto-completion
update when the cap is hit. -/
def fireResult (nowMs : Nat) (r : Reminder) : Reminder :=
  if capHit r (r.fire_count + 1) then completeOne nowMs r.id (fireOne nowMs r r)
  else fireOne nowMs r r

/-- Empty watch state. -/
def wst0 : WatchSt := { lastNotified := fun _ => none, lastGc := none }

/-- An active due time reminder for the check-watch witness. -/
def remC10 : Reminder :=
  { id := "w", content := "due now", trigger_type := .time, trigger_at := some 5,
    priority := 2, status := .active }

def stC10 : Store := { reminders := [remC10], history := [] }

-- ── Supporting lemmas ─────────────────────────────────────────────────────

theorem truncate_length (s : String) (n : Nat) (h : 1 ≤ n) :
    (truncate s n).length = min s.length n := by
  have hd : s.length = s.data.length := rfl
  unfold truncate
  split
  · omega
  · show (s.data.take (n - 1) ++ ['…']).length = _
    simp only [List.length_append, List.length_take, List.length_cons, List.length_nil]
    omega

theorem entrySize_eq_claim (r : Reminder)
    (h : r.priority = 1 ∨ r.priority = 2 ∨ r.priority = 3) :
    entrySize r = claimEntrySize r := by
  unfold entrySize claimEntrySize
  rcases h with h | h | h <;>
    rw [h] <;>
    simp only [charLimit, claimCap] <;>
    rw [truncate_length _ _ (by omega)]

theorem allocGo_eq_claim (budget : Nat) :
    ∀ cs used, allocGo budget used cs = claimAllocC1 budget used cs
  | [], _ => rfl
  | r :: rs, used => by
    by_cases h5 : r.priority = 5
    · simp only [allocGo, claimAllocC1, if_pos h5]
      exact allocGo_eq_claim budget rs used
    by_cases h4 : r.priority = 4
    · simp only [allocGo, claimAllocC1, if_neg h5, if_pos h4]
      rw [allocGo_eq_claim budget rs used]
    by_cases h1 : r.priority = 1
    · have he : entrySize r = claimEntrySize r := entrySize_eq_claim r (Or.inl h1)
      simp only [allocGo, claimAllocC1, if_neg h5, if_neg h4, if_pos h1, he]
      rw [allocGo_eq_claim budget rs (used + claimEntrySize r)]
    by_cases h2 : r.priority = 2
    · have he : entrySize r = claimEntrySize r := entrySize_eq_claim r (Or.inr (Or.inl h2))
      simp only [allocGo, claimAllocC1, if_neg h5, if_neg h4, if_neg h1, if_pos h2, he]
      split
      · rw [allocGo_eq_claim budget rs (used + claimEntrySize r)]
      · rw [allocGo_eq_claim budget rs used]
    by_cases h3 : r.priority = 3
    · have he : entrySize r = claimEntrySize r := entrySize_eq_claim r (Or.inr (Or.inr h3))
      simp only [allocGo, claimAllocC1, if_neg h5, if_neg h4, if_neg h1, if_neg h2, if_pos h3, he]
      split
      · rw [allocGo_eq_claim budget rs (used + claimEntrySize r)]
      · rw [allocGo_eq_claim budget rs used]
    · simp only [allocGo, claimAllocC1, if_neg h5, if_neg h4, if_neg h1, if_neg h2, if_neg h3]
      exact allocGo_eq_claim budget rs used

/-- C1: for every coreCheck call with budget B units (default 800) the
character ceiling is B × 4, candidates are processed in ascending priority
order after de-duplication by id, and the allocation loop embedded from the
source coincides, on every candidate list and every running total, with the
allocation policy as the claim words it (claimAllocC1): priority 5 dropped
uncounted, priority 4 always counted in overflow, priority 1 always
included, priority 2 included while the running total stays within 60
percent of the ceiling and otherwise counted, priority 3 likewise within 85
percent, each counted entry contributing min(content length, cap) + 30 with
caps 200 / 100 / 60. -/
theorem coreCheck_budget_allocation_C1 :
    (∀ opts b, opts.budget = some b → b ≠ 0 → budgetChars opts = b * 4) ∧
    (∀ opts, opts.budget = none → budgetChars opts = 800 * 4) ∧
    (∀ budget used cs, allocGo budget used cs = claimAllocC1 budget used cs) ∧
    (∀ env nowMs db opts,
      (coreCheck env nowMs db opts).2 =
        (let cands := dedupeById (List.insertionSort priorityLe
            (gatherTriggered env nowMs opts (agentOf opts)
              (escalatePhase opts.escalate nowMs (agentOf opts)
                ((db.reminders.map (reactivateOne nowMs (agentOf opts))).map
                  (expireOne nowMs (agentOf opts)))))) []
         let p := budgetAllocate (budgetChars opts) cands
         { included := p.1, overflowCounts := p.2, totalTriggered := cands.length })) := by
  refine ⟨?_, ?_, ?_, ?_⟩
  · intro opts b hb hnz
    unfold budgetChars
    rw [hb]
    simp [hnz]
  · intro opts hb
    unfold budgetChars
    rw [hb]
  · intro budget used cs
    exact allocGo_eq_claim budget cs used
  · intro env nowMs db opts
    simp only [coreCheck]
    split
    · rename_i hemp
      rw [List.isEmpty_iff.mp hemp]
      rfl
    · rfl

/-- Witness for C1 at a concrete input: budget 5 units gives ceiling 20. -/
theorem coreCheck_budget_allocation_C1_witness :
    budgetChars { budget := some 5 } = 5 * 4 :=
  coreCheck_budget_allocation_C1.1 { budget := some 5 } 5 rfl (by decide)

-- ── C2 ────────────────────────────────────────────────────────────────────

theorem fireOne_priority (nowMs : Nat) (r x : Reminder) :
    (fireOne nowMs r x).priority = x.priority := by
  unfold fireOne
  split <;> rfl

theorem completeOne_priority (nowMs : Nat) (rid : String) (x : Reminder) :
    (completeOne nowMs rid x).priority = x.priority := by
  unfold completeOne
  split <;> rfl

theorem fireStep_priority (nowMs : Nat) (s : Store) (r : Reminder) (i : Nat) :
    ((fireStep nowMs s r).reminders[i]?).map Reminder.priority =
      (s.reminders[i]?).map Reminder.priority := by
  simp only [fireStep]
  split <;>
    · simp only [List.getElem?_map, Option.map_map]
      cases s.reminders[i]? <;>
        simp [Function.comp, fireOne_priority, completeOne_priority]

theorem firePhase_priority (nowMs : Nat) :
    ∀ (inc : List Reminder) (s : Store) (i : Nat),
      ((firePhase nowMs inc s).reminders[i]?).map Reminder.priority =
        (s.reminders[i]?).map Reminder.priority
  | [], _, _ => rfl
  | r :: rest, s, i => by
    show ((firePhase nowMs rest (fireStep nowMs s r)).reminders[i]?).map _ = _
    rw [firePhase_priority nowMs rest (fireStep nowMs s r) i]
    exact fireStep_priority nowMs s r i

/-- The store returned by coreCheck keeps every row at its index, and the
fire-count loop never touches priorities, so the priority of row i equals
its priority after the reactivate / expire / escalate pipeline. -/
theorem coreCheck_priority_via_preRems (env : CheckEnv) (nowMs : Nat) (db : Store)
    (opts : CheckOptions) (i : Nat) :
    ((coreCheck env nowMs db opts).1.reminders[i]?).map Reminder.priority =
      ((preRems nowMs (agentOf opts) opts.escalate db.reminders)[i]?).map
        Reminder.priority := by
  simp only [coreCheck, preRems]
  split
  · rfl
  · split
    · rfl
    · exact firePhase_priority nowMs _ _ i

theorem reactivateOne_active (nowMs : Nat) (agent : String) (r : Reminder)
    (h : r.status = .active) : reactivateOne nowMs agent r = r := by
  unfold reactivateOne
  rw [if_neg]
  simp [h]

theorem expireOne_id_of_not_decayed (nowMs : Nat) (agent : String) (r : Reminder)
    (h : dueLe r.decay_at nowMs = false) : expireOne nowMs agent r = r := by
  unfold expireOne
  rw [if_neg]
  simp [isDecayed, h]

/-- C2 (amended): with escalation enabled, one evaluation runs the two
promotion UPDATEs in sequence over the same table, so a priority-3
time-triggered active reminder overdue by at least 48 hours is promoted to 2
by the first rule and then immediately to 1 by the second, ending the
evaluation at priority 1 (not 2); a priority-2 reminder overdue by at least
24 hours is promoted to 1.  In particular a reminder overdue by 72 hours or
more reaches priority 1 within the same evaluation. -/
theorem coreCheck_escalation_C2 (env : CheckEnv) (nowMs : Nat) (db : Store)
    (opts : CheckOptions) (i : Nat) (r : Reminder)
    (hget : db.reminders[i]? = some r)
    (hesc : opts.escalate = true)
    (htt : r.trigger_type = .time)
    (hst : r.status = .active)
    (hag : r.agent = agentOf opts)
    (hdec : dueLe r.decay_at nowMs = false)
    (t : Nat) (hta : r.trigger_at = some t)
    (hdue : (r.priority = 3 ∧ t + h48Ms ≤ nowMs) ∨
            (r.priority = 2 ∧ t + h24Ms ≤ nowMs)) :
    ((coreCheck env nowMs db opts).1.reminders[i]?).map Reminder.priority = some 1 := by
  rw [coreCheck_priority_via_preRems env nowMs db opts i]
  unfold preRems escalatePhase
  rw [if_pos hesc]
  simp only [List.getElem?_map, hget, Option.map_map, Option.map_some]
  show some ((escalate24 nowMs (agentOf opts) (escalate48 nowMs (agentOf opts)
    (expireOne nowMs (agentOf opts) (reactivateOne nowMs (agentOf opts) r)))).priority) = _
  rw [reactivateOne_active nowMs (agentOf opts) r hst,
      expireOne_id_of_not_decayed nowMs (agentOf opts) r hdec]
  rcases hdue with ⟨hp3, hle⟩ | ⟨hp2, hle⟩
  · have h48 : dueLe r.trigger_at (nowMs - h48Ms) = true := by
      rw [hta]; simp only [dueLe, decide_eq_true_eq]; omega
    have he48 : escalate48 nowMs (agentOf opts) r =
        { r with priority := 2, updated_at := nowMs } := by
      unfold escalate48
      rw [if_pos ⟨hp3, htt, h48, hst, hag⟩]
    rw [he48]
    have h24 : dueLe r.trigger_at (nowMs - h24Ms) = true := by
      rw [hta]; simp only [dueLe, decide_eq_true_eq]
      unfold h48Ms at hle
      unfold h24Ms
      omega
    unfold escalate24
    rw [if_pos ⟨rfl, htt, h24, hst, hag⟩]
  · have he48 : escalate48 nowMs (agentOf opts) r = r := by
      unfold escalate48
      rw [if_neg]
      simp [hp2]
    rw [he48]
    have h24 : dueLe r.trigger_at (nowMs - h24Ms) = true := by
      rw [hta]; simp only [dueLe, decide_eq_true_eq]; omega
    unfold escalate24
    rw [if_pos ⟨hp2, htt, h24, hst, hag⟩]

/-- Counterexample to C2 as stated: the concrete priority-3 time reminder in
stC2 is overdue by exactly 48 hours at the evaluation instant, yet one
evaluation with escalation enabled leaves it at priority 1, not priority
2. -/
theorem coreCheck_escalation_C2_counterexample :
    ((coreCheck cenv0 h48Ms stC2 { escalate := true }).1.reminders.map (·.priority)) = [1] ∧
    (1 : Nat) ≠ 2 := by
  constructor
  · decide
  · decide

/-- Witness for the amended C2 at a concrete input: the stC2 reminder is
overdue exactly 48 h and ends at priority 1. -/
theorem coreCheck_escalation_C2_witness :
    (((coreCheck cenv0 h48Ms stC2 { escalate := true }).1.reminders[0]?).map
      Reminder.priority) = some 1 :=
  coreCheck_escalation_C2 cenv0 h48Ms stC2 { escalate := true } 0 remC2 (by decide) rfl
    (by decide) (by decide) (by decide) (by decide) 0 (by decide)
    (Or.inl ⟨by decide, by decide⟩)

-- ── C3 ────────────────────────────────────────────────────────────────────

theorem frameC3_reactivateOne (nowMs : Nat) (agent : String) (r : Reminder) :
    frameC3 (reactivateOne nowMs agent r) = frameC3 r := by
  unfold reactivateOne
  split <;> rfl

theorem frameC3_expireOne (nowMs : Nat) (agent : String) (r : Reminder) :
    frameC3 (expireOne nowMs agent r) = frameC3 r := by
  unfold expireOne
  split <;> rfl

theorem frameC3_escalate48 (nowMs : Nat) (agent : String) (r : Reminder) :
    frameC3 (escalate48 nowMs agent r) = frameC3 r := by
  unfold escalate48
  split <;> rfl

theorem frameC3_escalate24 (nowMs : Nat) (agent : String) (r : Reminder) :
    frameC3 (escalate24 nowMs agent r) = frameC3 r := by
  unfold escalate24
  split <;> rfl

/-- In preview mode the fire-count loop never runs, so the returned store is
exactly the pipeline of per-row reactivate / expire / escalate updates. -/
theorem coreCheck_dry_rems (env : CheckEnv) (nowMs : Nat) (db : Store)
    (opts : CheckOptions) (hdry : opts.dryRun = true) :
    (coreCheck env nowMs db opts).1.reminders =
      preRems nowMs (agentOf opts) opts.escalate db.reminders := by
  simp only [coreCheck, preRems]
  split
  · rfl
  · rfl

/-- C3 (amended): a preview (dry-run) evaluation skips the fire-count phase
entirely, so for every stored reminder the fields that phase writes —
fire_count, last_fired, completed_at — are identical before and after the
call; the reactivation, expiry, and escalation steps of the pipeline do
however mutate records (status, snoozed_until, priority, updated_at) even in
preview mode. -/
theorem coreCheck_preview_C3 (env : CheckEnv) (nowMs : Nat) (db : Store)
    (opts : CheckOptions) (hdry : opts.dryRun = true) (i : Nat) :
    ((coreCheck env nowMs db opts).1.reminders[i]?).map frameC3 =
      (db.reminders[i]?).map frameC3 := by
  rw [coreCheck_dry_rems env nowMs db opts hdry]
  unfold preRems escalatePhase
  split <;>
    · simp only [List.getElem?_map, Option.map_map]
      cases db.reminders[i]? <;>
        simp [Function.comp, frameC3_reactivateOne, frameC3_expireOne,
          frameC3_escalate48, frameC3_escalate24]

/-- Counterexample to C3 as stated: in preview mode the concrete snoozed
reminder of stC3 (snooze expired) is reactivated — its stored status changes
from snoozed to active during the dry-run call, so not every field of every
record is identical before and after. -/
theorem coreCheck_preview_C3_counterexample :
    ((coreCheck cenv0 1000 stC3 { dryRun := true }).1.reminders.map (·.status))
        = [.active] ∧
    (stC3.reminders.map (·.status)) = [.snoozed] ∧
    ReminderStatus.active ≠ ReminderStatus.snoozed := by
  refine ⟨by decide, by decide, by decide⟩

/-- Witness for the amended C3 at a concrete input. -/
theorem coreCheck_preview_C3_witness :
    ((coreCheck cenv0 1000 stC3 { dryRun := true }).1.reminders[0]?).map frameC3 =
      (stC3.reminders[0]?).map frameC3 :=
  coreCheck_preview_C3 cenv0 1000 stC3 { dryRun := true } rfl 0

-- ── C4 ────────────────────────────────────────────────────────────────────

theorem mem_if_nil {α : Type} {c : Prop} [Decidable c] {l : List α} {x : α} :
    x ∈ (if c then l else []) ↔ c ∧ x ∈ l := by
  split
  · rename_i h
    simp [h]
  · rename_i h
    simp [h]

theorem conditionMatches_iff (env : CheckEnv) (r : Reminder) :
    conditionMatches env r = true ↔
      ∃ c e out, r.trigger_config = some (.cond c e) ∧ env.exec c = some out ∧
        jsTrim out = e := by
  unfold conditionMatches
  cases hcfg : r.trigger_config with
  | none => simp
  | some cfg =>
    cases cfg with
    | kw ks m => simp
    | cond c e =>
      cases hex : env.exec c with
      | none => simp [hex]
      | some out =>
        simp only [hex, decide_eq_true_eq]
        constructor
        · intro h
          exact ⟨c, e, out, rfl, hex, h⟩
        · rintro ⟨c1, e1, out1, hceq, hx, hjx⟩
          injection hceq with hceq2
          injection hceq2 with hc he
          subst hc
          subst he
          rw [hex] at hx
          injection hx with hx2
          rw [← hx2] at hjx
          exact hjx

/-- C4 (amended): during evaluation a condition-triggered reminder becomes a
due candidate if and only if the condition kind is requested, the reminder
is active for the evaluated agent, its dependency gate passes, and running
its configured check command through the execution oracle (execFileSync
under a 10-second timeout in the source) succeeds with output whose trimmed
form equals the configured expected string; any failure, non-zero exit, or
timeout (a none oracle outcome, standing for the caught exception) makes
that one candidate non-matching without any error escaping the evaluation,
and — the gather being an independent per-row filter — without affecting any
other candidate of the same batch. -/
theorem coreCheck_condition_C4 (env : CheckEnv) (nowMs : Nat) (opts : CheckOptions)
    (agent : String) (rs : List Reminder) (r : Reminder)
    (htt : r.trigger_type = .condition) :
    r ∈ gatherTriggered env nowMs opts agent rs ↔
      (requested opts .condition = true ∧ r ∈ rs ∧ r.status = .active ∧
       r.agent = agent ∧
       checkDependency ((rs.filter (fun x => decide (x.status = .completed))).map (·.id))
         r = true ∧
       ∃ c e out, r.trigger_config = some (.cond c e) ∧ env.exec c = some out ∧
         jsTrim out = e) := by
  unfold gatherTriggered
  cases htxt : opts.text with
  | none =>
    simp [List.mem_append, mem_if_nil, List.mem_filter, isActiveOfType,
      conditionMatches_iff, htt]
    tauto
  | some text =>
    simp [List.mem_append, mem_if_nil, List.mem_filter, isActiveOfType,
      conditionMatches_iff, htt]
    tauto

/-- Counterexample to C4 as stated: the check command of the concrete
condition reminder in stC4 produces the output with a trailing newline,
which is not exactly equal to the expected string ok, yet the reminder is a
due candidate and is included by the evaluation — the source compares the
trimmed output. -/
theorem coreCheck_condition_C4_counterexample :
    cenvC4.exec "cmd" = some "ok\n" ∧ ("ok\n" : String) ≠ "ok" ∧
    ((coreCheck cenvC4 0 stC4 {}).2.included.map (·.id)) = ["c"] := by
  refine ⟨rfl, by decide, by decide⟩

/-- Witness for the amended C4 at a concrete input: the stC4 reminder is
gathered because its trimmed output equals the expected string. -/
theorem coreCheck_condition_C4_witness :
    remC4 ∈ gatherTriggered cenvC4 0 {} "main" stC4.reminders :=
  (coreCheck_condition_C4 cenvC4 0 {} "main" stC4.reminders remC4 (by decide)).mpr
    ⟨rfl, by decide, by decide, by decide, by decide,
     "cmd", "ok", "ok\n", by decide, rfl, by decide⟩

-- ── C5 ────────────────────────────────────────────────────────────────────

theorem completeUpd_id (nowMs : Nat) (rid : String) (fn : Option String)
    (x : Reminder) : (completeUpd nowMs rid fn x).id = x.id := by
  unfold completeUpd
  split <;> rfl

/-- C5: completing a reminder whose recurrence rule has a positive interval
creates exactly one successor: the store grows by one row, appended last,
with due time equal to the previous due time (or now when absent) advanced
by interval × unit (month as 30 days), fresh identity newId, fire_count 0,
status active, recurrence parent the chain root (the completed reminder's
recur_parent_id when present, else its own id), and a created history entry
(originator system); the completed reminder itself is marked completed with
its completion time stamped, and the returned result carries the completed
row. -/
theorem coreComplete_recurrence_C5 (nowMs : Nat) (newId : String) (db : Store)
    (rid : String) (notes : Option String) (rem : Reminder) (rule : RecurRule)
    (hfind : db.reminders.find? (fun r => decide (r.id = rid)) = some rem)
    (hrule : rem.recur_rule = some rule)
    (hint : 0 < rule.interval)
    (hfresh : ∀ r ∈ db.reminders, r.id ≠ newId) :
    ∃ st res, coreComplete nowMs newId db rid notes = .ok (st, res) ∧
      st.reminders.length = db.reminders.length + 1 ∧
      res.nextRec = some (successorOf rem rule newId nowMs) ∧
      st.reminders.getLast? = some (successorOf rem rule newId nowMs) ∧
      (successorOf rem rule newId nowMs).trigger_at =
        some (rem.trigger_at.getD nowMs + rule.interval * unitMs rule.unit) ∧
      (successorOf rem rule newId nowMs).fire_count = 0 ∧
      (successorOf rem rule newId nowMs).status = .active ∧
      (successorOf rem rule newId nowMs).id = newId ∧
      newId ≠ rem.id ∧
      (successorOf rem rule newId nowMs).recur_parent_id =
        some (rem.recur_parent_id.getD rem.id) ∧
      (∃ e ∈ st.history, e.action = "created" ∧ e.reminder_id = newId ∧
        e.source = some "system" ∧ e.new_data = some (successorOf rem rule newId nowMs)) ∧
      (∀ x ∈ st.reminders, x.id = rem.id →
        x.status = .completed ∧ x.completed_at = some nowMs) ∧
      res.completed.status = .completed := by
  have hid0 := List.find?_some hfind
  simp only [decide_eq_true_eq] at hid0
  subst hid0
  have hmem : rem ∈ db.reminders := List.mem_of_find?_eq_some hfind
  have hremNew : rem.id ≠ newId := hfresh rem hmem
  have hfr : findReminder db.reminders rem.id = .ok (some rem) := by
    unfold findReminder
    rw [hfind]
  have hpred : ((fun x : Reminder => decide (x.id = rem.id)) ∘
      (completeUpd nowMs rem.id (mergeNotes notes rem.notes))) =
      (fun x : Reminder => decide (x.id = rem.id)) := by
    funext x
    simp [Function.comp, completeUpd_id]
  have hfind2 : ((db.reminders ++ [successorOf rem rule newId nowMs]).map
        (completeUpd nowMs rem.id (mergeNotes notes rem.notes))).find?
      (fun x => decide (x.id = rem.id)) =
      some (completeUpd nowMs rem.id (mergeNotes notes rem.notes) rem) := by
    rw [List.find?_map, hpred, List.find?_append, hfind]
    rfl
  have hcc : coreComplete nowMs newId db rem.id notes =
      .ok ({ reminders := (db.reminders ++ [successorOf rem rule newId nowMs]).map
               (completeUpd nowMs rem.id (mergeNotes notes rem.notes)),
             history := (db.history ++
               [recordHistory newId "created" none
                 (some (successorOf rem rule newId nowMs)) nowMs (some "system")]) ++
               [recordHistory rem.id "completed" (some rem)
                 (some (completeUpd nowMs rem.id (mergeNotes notes rem.notes) rem)) nowMs
                 (some "agent")] },
           { completed := completeUpd nowMs rem.id (mergeNotes notes rem.notes) rem,
             nextRec := some (successorOf rem rule newId nowMs) }) := by
    unfold coreComplete
    rw [hfr]
    show coreCompleteGo nowMs newId db notes (some rem) = _
    unfold coreCompleteGo
    simp only [hrule]
    rw [hfind2]
  have hcuRem : completeUpd nowMs rem.id (mergeNotes notes rem.notes) rem =
      { rem with
          status := .completed, completed_at := some nowMs,
          updated_at := nowMs, notes := mergeNotes notes rem.notes } := by
    unfold completeUpd
    rw [if_pos rfl]
  have hcuSucc : completeUpd nowMs rem.id (mergeNotes notes rem.notes)
      (successorOf rem rule newId nowMs) = successorOf rem rule newId nowMs := by
    unfold completeUpd
    rw [if_neg]
    show ¬(successorOf rem rule newId nowMs).id = rem.id
    intro hcon
    exact hremNew hcon.symm
  refine ⟨_, _, hcc, ?_, rfl, ?_, ?_, rfl, rfl, rfl, Ne.symm hremNew, rfl, ?_, ?_, ?_⟩
  · simp
  · show ((db.reminders ++ [successorOf rem rule newId nowMs]).map
        (completeUpd nowMs rem.id (mergeNotes notes rem.notes))).getLast? = _
    rw [List.map_append]
    simp only [List.map_cons, List.map_nil, List.getLast?_concat]
    rw [hcuSucc]
  · show some (nextRecurrence rem.trigger_at rule nowMs) = _
    unfold nextRecurrence
    have hnz : ¬rule.interval = 0 := by omega
    simp [hnz]
  · refine ⟨recordHistory newId "created" none
      (some (successorOf rem rule newId nowMs)) nowMs (some "system"), ?_, rfl, rfl, rfl, rfl⟩
    simp
  · intro x hx hxid
    obtain ⟨y, hy, rfl⟩ := List.mem_map.mp hx
    by_cases hyid : y.id = rem.id
    · unfold completeUpd
      rw [if_pos hyid]
      exact ⟨rfl, rfl⟩
    · rw [completeUpd_id] at hxid
      exact absurd hxid hyid
  · show (completeUpd nowMs rem.id (mergeNotes notes rem.notes) rem).status = _
    rw [hcuRem]

/-- Witness for C5 at a concrete input: completing the daily-recurring stC5
reminder grows the store by exactly one row, whose due time is one day after
the previous due time. -/
theorem coreComplete_recurrence_C5_witness :
    ∃ st res, coreComplete 9000 "n5" stC5 "r5" none = .ok (st, res) ∧
      st.reminders.length = stC5.reminders.length + 1 ∧
      (successorOf remC5 { interval := 1, unit := .d } "n5" 9000).trigger_at =
        some (500 + 1 * unitMs .d) := by
  obtain ⟨st, res, h1, h2, _, _, h5, _⟩ :=
    coreComplete_recurrence_C5 9000 "n5" stC5 "r5" none remC5
      { interval := 1, unit := .d } (by decide) (by decide) (by decide) (by decide)
  exact ⟨st, res, h1, h2, h5⟩

-- ── C6 ────────────────────────────────────────────────────────────────────

theorem reactivateOne_id (nowMs : Nat) (agent : String) (r : Reminder) :
    (reactivateOne nowMs agent r).id = r.id := by
  unfold reactivateOne
  split <;> rfl

theorem expireOne_id (nowMs : Nat) (agent : String) (r : Reminder) :
    (expireOne nowMs agent r).id = r.id := by
  unfold expireOne
  split <;> rfl

theorem escalate48_id (nowMs : Nat) (agent : String) (r : Reminder) :
    (escalate48 nowMs agent r).id = r.id := by
  unfold escalate48
  split <;> rfl

theorem escalate24_id (nowMs : Nat) (agent : String) (r : Reminder) :
    (escalate24 nowMs agent r).id = r.id := by
  unfold escalate24
  split <;> rfl

theorem fireOne_id (nowMs : Nat) (r x : Reminder) :
    (fireOne nowMs r x).id = x.id := by
  unfold fireOne
  split <;> rfl

theorem completeOne_id (nowMs : Nat) (rid : String) (x : Reminder) :
    (completeOne nowMs rid x).id = x.id := by
  unfold completeOne
  split <;> rfl

/-- The first three pipeline steps never change row ids. -/
theorem preRems_ids (nowMs : Nat) (agent : String) (esc : Bool)
    (rs : List Reminder) :
    (preRems nowMs agent esc rs).map (·.id) = rs.map (·.id) := by
  unfold preRems escalatePhase
  split <;>
    · simp only [List.map_map]
      apply List.map_congr_left
      intro r _
      simp [Function.comp, reactivateOne_id, expireOne_id, escalate48_id, escalate24_id]

/-- The included list of the budget loop is a sublist of the candidates. -/
theorem allocGo_included_sublist (budget : Nat) :
    ∀ cs used, List.Sublist (allocGo budget used cs).1 cs
  | [], _ => by simp [allocGo]
  | r :: rs, used => by
    by_cases h5 : r.priority = 5
    · simp only [allocGo, if_pos h5]
      exact (allocGo_included_sublist budget rs used).cons r
    by_cases h4 : r.priority = 4
    · simp only [allocGo, if_neg h5, if_pos h4]
      exact (allocGo_included_sublist budget rs used).cons r
    by_cases h1 : r.priority = 1
    · simp only [allocGo, if_neg h5, if_neg h4, if_pos h1]
      exact (allocGo_included_sublist budget rs (used + entrySize r)).cons₂ r
    by_cases h2 : r.priority = 2
    · simp only [allocGo, if_neg h5, if_neg h4, if_neg h1, if_pos h2]
      split
      · exact (allocGo_included_sublist budget rs (used + entrySize r)).cons₂ r
      · exact (allocGo_included_sublist budget rs used).cons r
    by_cases h3 : r.priority = 3
    · simp only [allocGo, if_neg h5, if_neg h4, if_neg h1, if_neg h2, if_pos h3]
      split
      · exact (allocGo_included_sublist budget rs (used + entrySize r)).cons₂ r
      · exact (allocGo_included_sublist budget rs used).cons r
    · simp only [allocGo, if_neg h5, if_neg h4, if_neg h1, if_neg h2, if_neg h3]
      exact (allocGo_included_sublist budget rs used).cons r

/-- The dedup loop keeps a sublist of its input. -/
theorem dedupeById_sublist : ∀ rs seen, List.Sublist (dedupeById rs seen) rs
  | [], _ => by simp [dedupeById]
  | r :: rs, seen => by
    simp only [dedupeById]
    split
    · exact (dedupeById_sublist rs seen).cons r
    · exact (dedupeById_sublist rs (r.id :: seen)).cons₂ r

/-- The dedup loop yields pairwise distinct ids, none of them in the seen
set. -/
theorem dedupeById_ids_nodup : ∀ rs seen,
    ((dedupeById rs seen).map (·.id)).Nodup ∧
      ∀ x ∈ dedupeById rs seen, x.id ∉ seen
  | [], _ => ⟨List.nodup_nil, by simp [dedupeById]⟩
  | r :: rs, seen => by
    simp only [dedupeById]
    split
    · exact dedupeById_ids_nodup rs seen
    · rename_i hcon
      obtain ⟨ihn, ihs⟩ := dedupeById_ids_nodup rs (r.id :: seen)
      constructor
      · simp only [List.map_cons, List.nodup_cons]
        refine ⟨?_, ihn⟩
        intro hmem
        obtain ⟨y, hy, hyid⟩ := List.mem_map.mp hmem
        exact (ihs y hy) (by simp [hyid])
      · intro x hx
        rcases List.mem_cons.mp hx with rfl | hx2
        · intro hin
          exact hcon (List.elem_iff.mpr hin)
        · intro hin
          exact (ihs x hx2) (by simp [hin])

/-- Every gathered candidate is a row of the table it was gathered from. -/
theorem mem_of_mem_gatherTriggered (env : CheckEnv) (nowMs : Nat)
    (opts : CheckOptions) (agent : String) (rs : List Reminder) (r : Reminder)
    (h : r ∈ gatherTriggered env nowMs opts agent rs) : r ∈ rs := by
  unfold gatherTriggered at h
  rcases List.mem_append.mp h with h | hlast
  rcases List.mem_append.mp h with h | h4
  rcases List.mem_append.mp h with h | h3
  rcases List.mem_append.mp h with h1 | h2
  · rw [mem_if_nil] at h1
    exact (List.mem_filter.mp h1.2).1
  · cases htxt : opts.text with
    | none =>
      rw [htxt] at h2
      simp at h2
    | some text =>
      rw [htxt] at h2
      rw [mem_if_nil] at h2
      exact (List.mem_filter.mp h2.2).1
  · rw [mem_if_nil] at h3
    exact (List.mem_filter.mp h3.2).1
  · rw [mem_if_nil] at h4
    exact (List.mem_filter.mp h4.2).1
  · rw [mem_if_nil] at hlast
    exact (List.mem_filter.mp hlast.2).1

/-- One fire-count iteration only appends to the history. -/
theorem fireStep_history (nowMs : Nat) (s : Store) (r : Reminder) :
    ∃ t, (fireStep nowMs s r).history = s.history ++ t := by
  simp only [fireStep]
  split
  · exact ⟨_, rfl⟩
  · exact ⟨[], (List.append_nil _).symm⟩

/-- The fire-count loop only appends to the history. -/
theorem firePhase_history (nowMs : Nat) :
    ∀ (inc : List Reminder) (s : Store),
      ∃ t, (firePhase nowMs inc s).history = s.history ++ t
  | [], s => ⟨[], (List.append_nil _).symm⟩
  | r :: rest, s => by
    obtain ⟨t1, h1⟩ := fireStep_history nowMs s r
    obtain ⟨t2, h2⟩ := firePhase_history nowMs rest (fireStep nowMs s r)
    exact ⟨t1 ++ t2, by
      show (firePhase nowMs rest (fireStep nowMs s r)).history = _
      rw [h2, h1, List.append_assoc]⟩

/-- A row whose id differs from the processed snapshot id is untouched by
one fire-count iteration, and row-id uniqueness for it is preserved. -/
theorem fireStep_other (nowMs : Nat) (s : Store) (r x : Reminder)
    (hx : x ∈ s.reminders) (hne : x.id ≠ r.id)
    (huniq : ∀ y ∈ s.reminders, y.id = x.id → y = x) :
    x ∈ (fireStep nowMs s r).reminders ∧
      (∀ y ∈ (fireStep nowMs s r).reminders, y.id = x.id → y = x) := by
  have hfx : fireOne nowMs r x = x := by
    unfold fireOne
    rw [if_neg hne]
  have hcx : completeOne nowMs r.id x = x := by
    unfold completeOne
    rw [if_neg hne]
  simp only [fireStep]
  split
  · constructor
    · show x ∈ (s.reminders.map (fireOne nowMs r)).map (completeOne nowMs r.id)
      refine List.mem_map.mpr ⟨fireOne nowMs r x, List.mem_map.mpr ⟨x, hx, rfl⟩, ?_⟩
      rw [hfx, hcx]
    · intro y hy hyid
      obtain ⟨z1, hz1, rfl⟩ := List.mem_map.mp hy
      obtain ⟨z, hz, rfl⟩ := List.mem_map.mp hz1
      have hzid : z.id = x.id := by
        rw [completeOne_id, fireOne_id] at hyid
        exact hyid
      have hzx : z = x := huniq z hz hzid
      rw [hzx, hfx, hcx]
  · constructor
    · show x ∈ s.reminders.map (fireOne nowMs r)
      exact List.mem_map.mpr ⟨x, hx, hfx⟩
    · intro y hy hyid
      obtain ⟨z, hz, rfl⟩ := List.mem_map.mp hy
      have hzid : z.id = x.id := by
        rw [fireOne_id] at hyid
        exact hyid
      have hzx : z = x := huniq z hz hzid
      rw [hzx, hfx]

/-- A row whose id is processed by no iteration of the fire-count loop is
untouched by the whole loop. -/
theorem firePhase_other (nowMs : Nat) :
    ∀ (inc : List Reminder) (s : Store) (x : Reminder),
      x ∈ s.reminders →
      (∀ y ∈ s.reminders, y.id = x.id → y = x) →
      (∀ r2 ∈ inc, r2.id ≠ x.id) →
      x ∈ (firePhase nowMs inc s).reminders
  | [], _, _, hx, _, _ => hx
  | r :: rest, s, x, hx, huniq, hni => by
    have hne : x.id ≠ r.id := fun hcon => (hni r (by simp)) hcon.symm
    obtain ⟨hx2, huniq2⟩ := fireStep_other nowMs s r x hx hne huniq
    exact firePhase_other nowMs rest (fireStep nowMs s r) x hx2 huniq2
      (fun r2 h2 => hni r2 (by simp [h2]))

/-- Processing the snapshot r itself: the row with id r.id becomes
fireResult, and when the cap is hit a completed history entry (originator
system) is recorded. -/
theorem fireStep_self (nowMs : Nat) (s : Store) (r : Reminder)
    (hx : r ∈ s.reminders)
    (huniq : ∀ y ∈ s.reminders, y.id = r.id → y = r) :
    fireResult nowMs r ∈ (fireStep nowMs s r).reminders ∧
      (∀ y ∈ (fireStep nowMs s r).reminders, y.id = r.id → y = fireResult nowMs r) ∧
      (capHit r (r.fire_count + 1) = true →
        ∃ e ∈ (fireStep nowMs s r).history,
          e.action = "completed" ∧ e.reminder_id = r.id ∧ e.source = some "system") := by
  have hfid : (fireOne nowMs r r).id = r.id := fireOne_id nowMs r r
  simp only [fireStep, fireResult]
  split
  · rename_i hcap
    refine ⟨?_, ?_, ?_⟩
    · show completeOne nowMs r.id (fireOne nowMs r r) ∈
        (s.reminders.map (fireOne nowMs r)).map (completeOne nowMs r.id)
      exact List.mem_map.mpr ⟨fireOne nowMs r r, List.mem_map.mpr ⟨r, hx, rfl⟩, rfl⟩
    · intro y hy hyid
      obtain ⟨z1, hz1, rfl⟩ := List.mem_map.mp hy
      obtain ⟨z, hz, rfl⟩ := List.mem_map.mp hz1
      have hzid : z.id = r.id := by
        rw [completeOne_id, fireOne_id] at hyid
        exact hyid
      rw [huniq z hz hzid]
    · intro _
      exact ⟨recordHistory r.id "completed" (some r)
        (((s.reminders.map (fireOne nowMs r)).map (completeOne nowMs r.id)).find?
          (fun x => decide (x.id = r.id))) nowMs (some "system"),
        by simp, rfl, rfl, rfl⟩
  · rename_i hcap
    refine ⟨?_, ?_, ?_⟩
    · exact List.mem_map.mpr ⟨r, hx, rfl⟩
    · intro y hy hyid
      obtain ⟨z, hz, rfl⟩ := List.mem_map.mp hy
      have hzid : z.id = r.id := by
        rw [fireOne_id] at hyid
        exact hyid
      rw [huniq z hz hzid]
    · intro hcon
      exact absurd hcon hcap

/-- The fire-count loop over a list of snapshots with pairwise distinct ids:
the row matching a processed snapshot r ends as fireResult r, with the
completed history entry present when the cap is hit. -/
theorem firePhase_applies (nowMs : Nat) :
    ∀ (inc : List Reminder) (s : Store) (r : Reminder),
      r ∈ inc →
      ((inc.map (·.id)).Nodup) →
      r ∈ s.reminders →
      (∀ y ∈ s.reminders, y.id = r.id → y = r) →
      (fireResult nowMs r ∈ (firePhase nowMs inc s).reminders ∧
        (capHit r (r.fire_count + 1) = true →
          ∃ e ∈ (firePhase nowMs inc s).history,
            e.action = "completed" ∧ e.reminder_id = r.id ∧ e.source = some "system"))
  | [], _, _, hmem, _, _, _ => absurd hmem (List.not_mem_nil _)
  | rh :: rest, s, r, hmem, hnd, hx, huniq => by
    have hndRest : ((rest.map (·.id)).Nodup) := by
      simp only [List.map_cons, List.nodup_cons] at hnd
      exact hnd.2
    rcases List.mem_cons.mp hmem with rfl | hmemR
    · obtain ⟨hself, huniq2, hhist⟩ := fireStep_self nowMs s r hx huniq
      have hresid : (fireResult nowMs r).id = r.id := by
        unfold fireResult
        split
        · rw [completeOne_id, fireOne_id]
        · rw [fireOne_id]
      have hni : ∀ r2 ∈ rest, r2.id ≠ (fireResult nowMs r).id := by
        intro r2 h2 hcon
        rw [hresid] at hcon
        simp only [List.map_cons, List.nodup_cons] at hnd
        exact hnd.1 (List.mem_map.mpr ⟨r2, h2, hcon⟩)
      have huniq3 : ∀ y ∈ (fireStep nowMs s r).reminders,
          y.id = (fireResult nowMs r).id → y = fireResult nowMs r := by
        intro y hy hyid
        rw [hresid] at hyid
        exact huniq2 y hy hyid
      constructor
      · exact firePhase_other nowMs rest (fireStep nowMs s r) (fireResult nowMs r)
          hself huniq3 hni
      · intro hcap
        obtain ⟨e, he, hef⟩ := hhist hcap
        obtain ⟨t, ht⟩ := firePhase_history nowMs rest (fireStep nowMs s r)
        refine ⟨e, ?_, hef⟩
        show e ∈ (firePhase nowMs rest (fireStep nowMs s r)).history
        rw [ht]
        exact List.mem_append.mpr (Or.inl he)
    · have hneHead : r.id ≠ rh.id := by
        intro hcon
        simp only [List.map_cons, List.nodup_cons] at hnd
        exact hnd.1 (List.mem_map.mpr ⟨r, hmemR, hcon⟩)
      obtain ⟨hx2, huniq2⟩ := fireStep_other nowMs s rh r hx hneHead huniq
      exact firePhase_applies nowMs rest (fireStep nowMs s rh) r hmemR hndRest hx2 huniq2

theorem fireResult_id (nowMs : Nat) (r : Reminder) :
    (fireResult nowMs r).id = r.id := by
  unfold fireResult
  split
  · rw [completeOne_id, fireOne_id]
  · rw [fireOne_id]

theorem fireOne_self (nowMs : Nat) (r : Reminder) :
    fireOne nowMs r r =
      { r with fire_count := r.fire_count + 1, last_fired := some nowMs,
               updated_at := nowMs } := by
  unfold fireOne
  rw [if_pos rfl]

theorem fireResult_eq_no (nowMs : Nat) (r : Reminder)
    (h : capHit r (r.fire_count + 1) = false) :
    fireResult nowMs r =
      { r with fire_count := r.fire_count + 1, last_fired := some nowMs,
               updated_at := nowMs } := by
  unfold fireResult
  rw [h]
  show fireOne nowMs r r = _
  exact fireOne_self nowMs r

theorem fireResult_eq_yes (nowMs : Nat) (r : Reminder)
    (h : capHit r (r.fire_count + 1) = true) :
    fireResult nowMs r =
      { r with fire_count := r.fire_count + 1, last_fired := some nowMs,
               updated_at := nowMs, status := .completed,
               completed_at := some nowMs } := by
  unfold fireResult
  rw [h]
  show completeOne nowMs r.id (fireOne nowMs r r) = _
  rw [fireOne_self]
  unfold completeOne
  rw [if_pos rfl]

/-- With an empty gather, coreCheck includes nothing. -/
theorem coreCheck_included_empty (env : CheckEnv) (nowMs : Nat) (db : Store)
    (opts : CheckOptions)
    (hne : (gatherTriggered env nowMs opts (agentOf opts)
      (preRems nowMs (agentOf opts) opts.escalate db.reminders)).isEmpty = true) :
    (coreCheck env nowMs db opts).2.included = [] := by
  unfold preRems at hne
  simp only [coreCheck]
  rw [if_pos hne]

/-- With a non-empty gather and preview off, coreCheck is the fire-count
loop over the allocated candidates applied to the pipelined store. -/
theorem coreCheck_fire_shape (env : CheckEnv) (nowMs : Nat) (db : Store)
    (opts : CheckOptions)
    (hdry : opts.dryRun = false)
    (hne : (gatherTriggered env nowMs opts (agentOf opts)
      (preRems nowMs (agentOf opts) opts.escalate db.reminders)).isEmpty = false) :
    coreCheck env nowMs db opts =
      (firePhase nowMs
        (budgetAllocate (budgetChars opts) (dedupeById (List.insertionSort priorityLe
          (gatherTriggered env nowMs opts (agentOf opts)
            (preRems nowMs (agentOf opts) opts.escalate db.reminders))) [])).1
        { reminders := preRems nowMs (agentOf opts) opts.escalate db.reminders,
          history := db.history ++
            ((db.reminders.map (reactivateOne nowMs (agentOf opts))).filter
              (isDecayed nowMs (agentOf opts))).map (expiredEntry nowMs) },
       { included := (budgetAllocate (budgetChars opts)
           (dedupeById (List.insertionSort priorityLe
             (gatherTriggered env nowMs opts (agentOf opts)
               (preRems nowMs (agentOf opts) opts.escalate db.reminders))) [])).1,
         overflowCounts := (budgetAllocate (budgetChars opts)
           (dedupeById (List.insertionSort priorityLe
             (gatherTriggered env nowMs opts (agentOf opts)
               (preRems nowMs (agentOf opts) opts.escalate db.reminders))) [])).2,
         totalTriggered := (dedupeById (List.insertionSort priorityLe
           (gatherTriggered env nowMs opts (agentOf opts)
             (preRems nowMs (agentOf opts) opts.escalate db.reminders))) []).length }) := by
  unfold preRems at hne ⊢
  have hc1 : ¬((gatherTriggered env nowMs opts (agentOf opts)
      (escalatePhase opts.escalate nowMs (agentOf opts)
        ((db.reminders.map (reactivateOne nowMs (agentOf opts))).map
          (expireOne nowMs (agentOf opts))))).isEmpty = true) := by
    rw [hne]
    simp
  have hc2 : ¬(opts.dryRun = true) := by
    rw [hdry]
    simp
  simp only [coreCheck]
  rw [if_neg hc1, if_neg hc2]

/-- C6: in a non-preview evaluation over a store with pairwise distinct row
ids, every included reminder has its fire count incremented and its
last-fired / updated timestamps stamped in the returned store; and when it
carries a positive fire cap that the new count reaches or exceeds, its
status transitions to completed, its completion time is stamped, and a
completed history entry with originator system is emitted.  (The source
treats a zero cap as no cap: `rem.max_fires &&` is falsy for 0.) -/
theorem coreCheck_fire_counts_C6 (env : CheckEnv) (nowMs : Nat) (db : Store)
    (opts : CheckOptions) (r : Reminder)
    (hdry : opts.dryRun = false)
    (hnd : (db.reminders.map (·.id)).Nodup)
    (hmem : r ∈ (coreCheck env nowMs db opts).2.included) :
    ∃ x ∈ (coreCheck env nowMs db opts).1.reminders, x.id = r.id ∧
      x.fire_count = r.fire_count + 1 ∧ x.last_fired = some nowMs ∧
      x.updated_at = nowMs ∧
      (∀ m, r.max_fires = some m → 0 < m → m ≤ r.fire_count + 1 →
        x.status = .completed ∧ x.completed_at = some nowMs ∧
        ∃ e ∈ (coreCheck env nowMs db opts).1.history,
          e.action = "completed" ∧ e.reminder_id = r.id ∧ e.source = some "system") := by
  cases hne : (gatherTriggered env nowMs opts (agentOf opts)
      (preRems nowMs (agentOf opts) opts.escalate db.reminders)).isEmpty with
  | true =>
    rw [coreCheck_included_empty env nowMs db opts hne] at hmem
    exact absurd hmem (List.not_mem_nil r)
  | false =>
    rw [coreCheck_fire_shape env nowMs db opts hdry hne] at hmem ⊢
    simp only at hmem ⊢
    have hsub1 : List.Sublist (budgetAllocate (budgetChars opts)
        (dedupeById (List.insertionSort priorityLe
          (gatherTriggered env nowMs opts (agentOf opts)
            (preRems nowMs (agentOf opts) opts.escalate db.reminders))) [])).1
        (dedupeById (List.insertionSort priorityLe
          (gatherTriggered env nowMs opts (agentOf opts)
            (preRems nowMs (agentOf opts) opts.escalate db.reminders))) []) :=
      allocGo_included_sublist (budgetChars opts) _ 0
    have hndInc := ((dedupeById_ids_nodup (List.insertionSort priorityLe
      (gatherTriggered env nowMs opts (agentOf opts)
        (preRems nowMs (agentOf opts) opts.escalate db.reminders))) []).1).sublist
      (hsub1.map (·.id))
    have hrDeduped := hsub1.subset hmem
    have hrSorted := (dedupeById_sublist _ _).subset hrDeduped
    have hrTrig : r ∈ gatherTriggered env nowMs opts (agentOf opts)
        (preRems nowMs (agentOf opts) opts.escalate db.reminders) := by
      rw [← List.mem_insertionSort priorityLe]
      exact hrSorted
    have hrRs3 : r ∈ preRems nowMs (agentOf opts) opts.escalate db.reminders :=
      mem_of_mem_gatherTriggered env nowMs opts (agentOf opts) _ r hrTrig
    have hndRs3 : ((preRems nowMs (agentOf opts) opts.escalate db.reminders).map
        (·.id)).Nodup := by
      rw [preRems_ids]
      exact hnd
    have huniq : ∀ y ∈ preRems nowMs (agentOf opts) opts.escalate db.reminders,
        y.id = r.id → y = r :=
      fun y hy hyid => List.inj_on_of_nodup_map hndRs3 hy hrRs3 hyid
    obtain ⟨hxmem, hhist⟩ := firePhase_applies nowMs _
      { reminders := preRems nowMs (agentOf opts) opts.escalate db.reminders,
        history := db.history ++
          ((db.reminders.map (reactivateOne nowMs (agentOf opts))).filter
            (isDecayed nowMs (agentOf opts))).map (expiredEntry nowMs) }
      r hmem hndInc hrRs3 huniq
    refine ⟨fireResult nowMs r, hxmem, fireResult_id nowMs r, ?_⟩
    cases hcap : capHit r (r.fire_count + 1) with
    | false =>
      rw [fireResult_eq_no nowMs r hcap]
      refine ⟨rfl, rfl, rfl, ?_⟩
      intro m hm h0 hge
      exfalso
      have hcap2 : capHit r (r.fire_count + 1) = true := by
        unfold capHit
        rw [hm]
        have hm0 : ¬m = 0 := by omega
        simp [hm0, hge]
      rw [hcap2] at hcap
      simp at hcap
    | true =>
      rw [fireResult_eq_yes nowMs r hcap]
      refine ⟨rfl, rfl, rfl, ?_⟩
      intro m hm h0 hge
      exact ⟨rfl, rfl, hhist hcap⟩

/-- Witness for C6 at a concrete input: the fire-cap-1 reminder of stC6 is
included by a non-preview evaluation and transitions to completed. -/
theorem coreCheck_fire_counts_C6_witness :
    ∃ x ∈ (coreCheck cenv0 50 stC6 {}).1.reminders, x.id = remC6.id ∧
      x.status = .completed ∧ x.completed_at = some 50 ∧
      x.fire_count = remC6.fire_count + 1 := by
  obtain ⟨x, hx, hid, hfc, _, _, hcap⟩ :=
    coreCheck_fire_counts_C6 cenv0 50 stC6 {} remC6 rfl (by decide) (by decide)
  obtain ⟨hst, hca, _⟩ := hcap 1 rfl (by decide) (by decide)
  exact ⟨x, hx, hid, hst, hca, hfc⟩

-- ── C7 ────────────────────────────────────────────────────────────────────

/-- The history written by coreCheck extends the input history with the
expiry entries followed by whatever the fire-count loop appends. -/
theorem coreCheck_history_shape (env : CheckEnv) (nowMs : Nat) (db : Store)
    (opts : CheckOptions) :
    ∃ t, (coreCheck env nowMs db opts).1.history =
      (db.history ++ ((db.reminders.map (reactivateOne nowMs (agentOf opts))).filter
        (isDecayed nowMs (agentOf opts))).map (expiredEntry nowMs)) ++ t := by
  simp only [coreCheck]
  split
  · exact ⟨[], (List.append_nil _).symm⟩
  · split
    · exact ⟨[], (List.append_nil _).symm⟩
    · exact firePhase_history nowMs _ _

theorem coreSnooze_history_aux (nowMs su : Nat) (db : Store) (rid : String)
    (st : Store) (r2 : Reminder) (h : coreSnooze nowMs su db rid = .ok (st, r2)) :
    ∃ e, st.history = db.history ++ [e] ∧ e.action = "snoozed" ∧
      e.reminder_id = r2.id ∧ e.source = some "agent" := by
  unfold coreSnooze at h
  cases hf : findReminder db.reminders rid with
  | error err =>
    rw [hf] at h
    exact Except.noConfusion h
  | ok rem? =>
    rw [hf] at h
    replace h : coreSnoozeGo nowMs su db rem? = .ok (st, r2) := h
    cases rem? with
    | none => exact Except.noConfusion h
    | some rem =>
      simp only [coreSnoozeGo] at h
      cases hfd : (db.reminders.map (fun x =>
          if x.id = rem.id then
            { x with status := .snoozed, snoozed_until := some su, updated_at := nowMs }
          else x)).find? (fun x => decide (x.id = rem.id)) with
      | none =>
        rw [hfd] at h
        exact Except.noConfusion h
      | some newData =>
        rw [hfd] at h
        injection h with h2
        injection h2 with hst hr2
        have hnid := List.find?_some hfd
        simp only [decide_eq_true_eq] at hnid
        refine ⟨recordHistory rem.id "snoozed" (some rem) (some newData) nowMs
          (some "agent"), ?_, rfl, ?_, rfl⟩
        · rw [← hst]
        · rw [← hr2]
          exact hnid.symm

theorem coreComplete_history_aux (nowMs : Nat) (newId : String) (db : Store)
    (rid : String) (notes : Option String) (st : Store) (res : CompleteResult)
    (h : coreComplete nowMs newId db rid notes = .ok (st, res)) :
    ∃ es, st.history = db.history ++ es ∧
      ∃ e ∈ es, e.action = "completed" ∧ e.reminder_id = res.completed.id ∧
        e.source = some "agent" := by
  unfold coreComplete at h
  cases hf : findReminder db.reminders rid with
  | error err =>
    rw [hf] at h
    exact Except.noConfusion h
  | ok rem? =>
    rw [hf] at h
    replace h : coreCompleteGo nowMs newId db notes rem? = .ok (st, res) := h
    cases rem? with
    | none => exact Except.noConfusion h
    | some rem =>
      simp only [coreCompleteGo] at h
      cases hrr : rem.recur_rule with
      | some rule =>
        simp only [hrr] at h
        cases hfd : ((db.reminders ++ [successorOf rem rule newId nowMs]).map
            (completeUpd nowMs rem.id (mergeNotes notes rem.notes))).find?
            (fun x => decide (x.id = rem.id)) with
        | none =>
          rw [hfd] at h
          exact Except.noConfusion h
        | some newData =>
          rw [hfd] at h
          injection h with h2
          injection h2 with hst hres
          have hnid := List.find?_some hfd
          simp only [decide_eq_true_eq] at hnid
          refine ⟨[recordHistory newId "created" none
              (some (successorOf rem rule newId nowMs)) nowMs (some "system")] ++
            [recordHistory rem.id "completed" (some rem) (some newData) nowMs
              (some "agent")], ?_, ?_⟩
          · rw [← hst]
            simp
          · refine ⟨recordHistory rem.id "completed" (some rem) (some newData) nowMs
              (some "agent"), by simp, rfl, ?_, rfl⟩
            rw [← hres]
            exact hnid.symm
      | none =>
        simp only [hrr] at h
        cases hfd : (db.reminders.map
            (completeUpd nowMs rem.id (mergeNotes notes rem.notes))).find?
            (fun x => decide (x.id = rem.id)) with
        | none =>
          rw [hfd] at h
          exact Except.noConfusion h
        | some newData =>
          rw [hfd] at h
          injection h with h2
          injection h2 with hst hres
          have hnid := List.find?_some hfd
          simp only [decide_eq_true_eq] at hnid
          refine ⟨[recordHistory rem.id "completed" (some rem) (some newData) nowMs
            (some "agent")], ?_, ?_⟩
          · rw [← hst]
          · refine ⟨recordHistory rem.id "completed" (some rem) (some newData) nowMs
              (some "agent"), by simp, rfl, ?_, rfl⟩
            rw [← hres]
            exact hnid.symm

theorem coreEdit_history_aux (nowMs : Nat) (db : Store) (rid : String)
    (opts : EditOptions) (st : Store) (r2 : Reminder)
    (h : coreEdit nowMs db rid opts = .ok (st, r2)) :
    ∃ e, st.history = db.history ++ [e] ∧ e.action = "updated" ∧
      e.reminder_id = r2.id ∧ e.source = some "agent" := by
  unfold coreEdit at h
  cases hf : findReminder db.reminders rid with
  | error err =>
    rw [hf] at h
    exact Except.noConfusion h
  | ok rem? =>
    rw [hf] at h
    replace h : coreEditGo nowMs db opts rem? = .ok (st, r2) := h
    cases rem? with
    | none => exact Except.noConfusion h
    | some rem =>
      simp only [coreEditGo] at h
      split at h
      · exact Except.noConfusion h
      · split at h
        · cases hfd : (db.reminders.map (fun x =>
              if x.id = rem.id then applyEdit nowMs opts rem x else x)).find?
              (fun x => decide (x.id = rem.id)) with
          | none =>
            rw [hfd] at h
            exact Except.noConfusion h
          | some newData =>
            rw [hfd] at h
            injection h with h2
            injection h2 with hst hr2
            have hnid := List.find?_some hfd
            simp only [decide_eq_true_eq] at hnid
            refine ⟨recordHistory rem.id "updated" (some rem) (some newData) nowMs
              (some "agent"), ?_, rfl, ?_, rfl⟩
            · rw [← hst]
            · rw [← hr2]
              exact hnid.symm
        · exact Except.noConfusion h

theorem coreDelete_history_aux (nowMs : Nat) (db : Store) (opts : DeleteOptions)
    (st : Store) (c : Nat) (p : Bool) (hbulk : opts.status = none)
    (h : coreDelete nowMs db opts = .ok (st, c, p)) :
    ∃ e, st.history = db.history ++ [e] ∧ e.action = "deleted" ∧
      e.source = some "agent" := by
  unfold coreDelete at h
  simp only [hbulk] at h
  cases hid : opts.id with
  | none =>
    simp only [hid] at h
    exact Except.noConfusion h
  | some rid =>
    simp only [hid] at h
    cases hf : findReminder db.reminders rid with
    | error err =>
      rw [hf] at h
      exact Except.noConfusion h
    | ok rem? =>
      rw [hf] at h
      replace h : coreDeleteGo nowMs db opts.permanent rem? = .ok (st, c, p) := h
      cases rem? with
      | none => exact Except.noConfusion h
      | some rem =>
        simp only [coreDeleteGo] at h
        split at h
        · injection h with h2
          injection h2 with hst hrest
          exact ⟨recordHistory rem.id "deleted" (some rem) none nowMs (some "agent"),
            by rw [← hst], rfl, rfl⟩
        · cases hfd : (db.reminders.map (fun x =>
              if x.id = rem.id then { x with status := .deleted, updated_at := nowMs }
              else x)).find? (fun x => decide (x.id = rem.id)) with
          | none =>
            rw [hfd] at h
            exact Except.noConfusion h
          | some newData =>
            rw [hfd] at h
            injection h with h2
            injection h2 with hst hrest
            exact ⟨recordHistory rem.id "deleted" (some rem) (some newData) nowMs
              (some "agent"), by rw [← hst], rfl, rfl⟩

/-- C7 (amended): history is append-only — every core operation leaves the
existing entries untouched and only appends — and the operations that record
a HistoryEntry for their mutation are: decay expiry during evaluation
(action expired, originator system), fire-cap auto-completion (action
completed, originator system), coreComplete (action completed), coreSnooze
(action snoozed), coreEdit (action updated), and single-id coreDelete
(action deleted).  Snooze-expiry reactivation, priority escalation, plain
fire-count increments, and bulk status delete mutate records without
recording history (see the counterexample). -/
theorem history_append_only_C7 :
    (∀ env nowMs db opts, ∃ t,
      (coreCheck env nowMs db opts).1.history = db.history ++ t) ∧
    (∀ env nowMs db opts r,
      r ∈ db.reminders.map (reactivateOne nowMs (agentOf opts)) →
      isDecayed nowMs (agentOf opts) r = true →
      ∃ e ∈ (coreCheck env nowMs db opts).1.history,
        e.action = "expired" ∧ e.reminder_id = r.id ∧ e.source = some "system") ∧
    (∀ nowMs s r, capHit r (r.fire_count + 1) = true →
      ∃ e, (fireStep nowMs s r).history = s.history ++ [e] ∧
        e.action = "completed" ∧ e.reminder_id = r.id ∧ e.source = some "system") ∧
    (∀ nowMs newId db rid notes st res,
      coreComplete nowMs newId db rid notes = .ok (st, res) →
      ∃ es, st.history = db.history ++ es ∧
        ∃ e ∈ es, e.action = "completed" ∧ e.reminder_id = res.completed.id ∧
          e.source = some "agent") ∧
    (∀ nowMs su db rid st r2, coreSnooze nowMs su db rid = .ok (st, r2) →
      ∃ e, st.history = db.history ++ [e] ∧ e.action = "snoozed" ∧
        e.reminder_id = r2.id ∧ e.source = some "agent") ∧
    (∀ nowMs db rid opts st r2, coreEdit nowMs db rid opts = .ok (st, r2) →
      ∃ e, st.history = db.history ++ [e] ∧ e.action = "updated" ∧
        e.reminder_id = r2.id ∧ e.source = some "agent") ∧
    (∀ nowMs db opts st c p, opts.status = none →
      coreDelete nowMs db opts = .ok (st, c, p) →
      ∃ e, st.history = db.history ++ [e] ∧ e.action = "deleted" ∧
        e.source = some "agent") := by
  refine ⟨?_, ?_, ?_, ?_, ?_, ?_, ?_⟩
  · intro env nowMs db opts
    obtain ⟨t, ht⟩ := coreCheck_history_shape env nowMs db opts
    exact ⟨((db.reminders.map (reactivateOne nowMs (agentOf opts))).filter
      (isDecayed nowMs (agentOf opts))).map (expiredEntry nowMs) ++ t,
      by rw [ht, List.append_assoc]⟩
  · intro env nowMs db opts r hr hdec
    obtain ⟨t, ht⟩ := coreCheck_history_shape env nowMs db opts
    refine ⟨expiredEntry nowMs r, ?_, rfl, rfl, rfl⟩
    rw [ht]
    refine List.mem_append.mpr (Or.inl (List.mem_append.mpr (Or.inr ?_)))
    exact List.mem_map.mpr ⟨r, List.mem_filter.mpr ⟨hr, hdec⟩, rfl⟩
  · intro nowMs s r hcap
    simp only [fireStep]
    rw [hcap]
    exact ⟨_, rfl, rfl, rfl, rfl⟩
  · exact coreComplete_history_aux
  · exact coreSnooze_history_aux
  · exact coreEdit_history_aux
  · exact coreDelete_history_aux

/-- Counterexample to C7 as stated: coreCheck reactivates the snoozed stC3
reminder (a stored-record mutation: status snoozed to active) while
recording no HistoryEntry at all. -/
theorem history_append_only_C7_counterexample :
    (stC3.reminders.map (·.status) = [.snoozed]) ∧
    ((coreCheck cenv0 1000 stC3 {}).1.reminders.map (·.status) = [.active]) ∧
    ((coreCheck cenv0 1000 stC3 {}).1.history = []) := by
  refine ⟨by decide, by decide, by decide⟩

/-- Witness for the amended C7 at a concrete input: snoozing the stC7
reminder appends exactly one snoozed entry. -/
theorem history_append_only_C7_witness :
    ∃ st r2, coreSnooze 100 500 stC7 "s" = .ok (st, r2) ∧
      ∃ e, st.history = stC7.history ++ [e] ∧ e.action = "snoozed" := by
  refine ⟨_, _, rfl, ?_⟩
  obtain ⟨e, he1, he2, _, _⟩ :=
    history_append_only_C7.2.2.2.2.1 100 500 stC7 "s" _ _ rfl
  exact ⟨e, he1, he2⟩

-- ── C8 ────────────────────────────────────────────────────────────────────

theorem markNotified_get (st : WatchSt) (rid : String) (t : Nat) :
    (markNotified st rid t).lastNotified rid = some t := by
  unfold markNotified
  simp

theorem markNotified_get_other (st : WatchSt) (rid i : String) (t : Nat)
    (h : i ≠ rid) : (markNotified st rid t).lastNotified i = st.lastNotified i := by
  unfold markNotified
  simp [h]

/-- Every mark made during one pass at instant t writes the value t, so a
lastNotified entry already equal to t survives the pass. -/
theorem notifyPass_keeps_t (C t : Nat) :
    ∀ (inc : List Reminder) (st : WatchSt) (i : String),
      st.lastNotified i = some t →
      (notifyPass C t st inc).2.lastNotified i = some t
  | [], _, _, h => h
  | r :: rest, st, i, h => by
    simp only [notifyPass]
    split
    · refine notifyPass_keeps_t C t rest _ i ?_
      by_cases hir : i = r.id
      · rw [hir, markNotified_get]
      · rw [markNotified_get_other st r.id i t hir]
        exact h
    · exact notifyPass_keeps_t C t rest st i h

/-- A reminder dispatched during a pass at instant t leaves the pass with
lastNotified equal to t. -/
theorem notifyPass_dispatched_marked (C t : Nat) :
    ∀ (inc : List Reminder) (st : WatchSt) (r : Reminder),
      r ∈ (notifyPass C t st inc).1 →
      (notifyPass C t st inc).2.lastNotified r.id = some t
  | [], _, _, h => absurd h (List.not_mem_nil _)
  | rr :: rest, st, r, h => by
    simp only [notifyPass] at h ⊢
    split at h
    · rcases List.mem_cons.mp h with rfl | h2
      · split
        · exact notifyPass_keeps_t C t rest _ r.id (markNotified_get st r.id t)
        · simp_all
      · split
        · exact notifyPass_dispatched_marked C t rest _ r h2
        · simp_all
    · split
      · simp_all
      · exact notifyPass_dispatched_marked C t rest st r h

/-- A pass at instant t2 never dispatches an id whose cooldown since its
recorded notification has not elapsed. -/
theorem notifyPass_skips_cooldown (C t2 : Nat) :
    ∀ (inc : List Reminder) (st : WatchSt) (i : String) (v : Nat),
      st.lastNotified i = some v →
      ¬((C : Int) ≤ (t2 : Int) - (v : Int)) →
      ∀ y ∈ (notifyPass C t2 st inc).1, y.id ≠ i
  | [], _, _, _, _, _, y, hy => absurd hy (List.not_mem_nil _)
  | rr :: rest, st, i, v, hv, hlt, y, hy => by
    simp only [notifyPass] at hy
    split at hy
    · rename_i hsn
      rcases List.mem_cons.mp hy with rfl | hy2
      · intro hcon
        rw [hcon] at hsn
        unfold shouldNotify at hsn
        rw [hv] at hsn
        simp only [decide_eq_true_eq] at hsn
        exact hlt hsn
      · intro hcon
        subst hcon
        have hyneq : y.id ≠ rr.id := by
          intro h2
          rw [← h2] at hsn
          unfold shouldNotify at hsn
          rw [hv] at hsn
          simp only [decide_eq_true_eq] at hsn
          exact hlt hsn
        have hst2 : (markNotified st rr.id t2).lastNotified y.id = some v := by
          rw [markNotified_get_other st rr.id y.id t2 hyneq]
          exact hv
        exact notifyPass_skips_cooldown C t2 rest _ y.id v hst2 hlt y hy2 rfl
    · exact notifyPass_skips_cooldown C t2 rest st i v hv hlt y hy

/-- A pass at instant t2 dispatches an included id whose cooldown since its
recorded notification has elapsed. -/
theorem notifyPass_dispatches_when_due (C t2 : Nat) :
    ∀ (inc : List Reminder) (st : WatchSt) (i : String) (v : Nat) (x : Reminder),
      x ∈ inc → x.id = i →
      st.lastNotified i = some v →
      ((C : Int) ≤ (t2 : Int) - (v : Int)) →
      ∃ y ∈ (notifyPass C t2 st inc).1, y.id = i
  | [], _, _, _, _, hx, _, _, _ => absurd hx (List.not_mem_nil _)
  | rr :: rest, st, i, v, x, hx, hxi, hv, hge => by
    by_cases hri : rr.id = i
    · have hsn : shouldNotify st rr.id t2 C = true := by
        unfold shouldNotify
        rw [hri, hv]
        simp only [decide_eq_true_eq]
        exact hge
      simp only [notifyPass, if_pos hsn]
      exact ⟨rr, by simp, hri⟩
    · have hxr : x ∈ rest := by
        rcases List.mem_cons.mp hx with rfl | h2
        · exact absurd hxi hri
        · exact h2
      simp only [notifyPass]
      split
      · have hst2 : (markNotified st rr.id t2).lastNotified i = some v := by
          rw [markNotified_get_other st rr.id i t2 (fun h => hri h.symm)]
          exact hv
        obtain ⟨y, hy, hyi⟩ :=
          notifyPass_dispatches_when_due C t2 rest (markNotified st rr.id t2) i v x
            hxr hxi hst2 hge
        exact ⟨y, by simp [hy], hyi⟩
      · exact notifyPass_dispatches_when_due C t2 rest st i v x hxr hxi hv hge

/-- C8: for cooldown C, after an id is marked notified at instant t,
shouldNotify at instant t2 holds exactly when t2 − t ≥ C; consequently, over
the notification loop of runCheckCycle, a reminder dispatched in a tick at t
is never dispatched again by a tick at t2 with t2 − t < C (at most one
dispatch across the two ticks), and is dispatched again by a tick at t2 with
t2 − t ≥ C whenever it is again included (two dispatches). -/
theorem watch_cooldown_C8 :
    (∀ (st : WatchSt) (rid : String) (t t2 C : Nat),
      shouldNotify (markNotified st rid t) rid t2 C = true ↔
        (C : Int) ≤ (t2 : Int) - (t : Int)) ∧
    (∀ (C t t2 : Nat) (st : WatchSt) (inc1 inc2 : List Reminder) (r : Reminder),
      r ∈ (notifyPass C t st inc1).1 →
      ((t2 : Int) - (t : Int) < (C : Int)) →
      ∀ y ∈ (notifyPass C t2 (notifyPass C t st inc1).2 inc2).1, y.id ≠ r.id) ∧
    (∀ (C t t2 : Nat) (st : WatchSt) (inc1 inc2 : List Reminder) (r x : Reminder),
      r ∈ (notifyPass C t st inc1).1 →
      ((C : Int) ≤ (t2 : Int) - (t : Int)) →
      x ∈ inc2 → x.id = r.id →
      ∃ y ∈ (notifyPass C t2 (notifyPass C t st inc1).2 inc2).1, y.id = r.id) := by
  refine ⟨?_, ?_, ?_⟩
  · intro st rid t t2 C
    unfold shouldNotify
    rw [markNotified_get]
    simp
  · intro C t t2 st inc1 inc2 r hr hlt
    have hm := notifyPass_dispatched_marked C t inc1 st r hr
    exact notifyPass_skips_cooldown C t2 inc2 _ r.id t hm (by omega)
  · intro C t t2 st inc1 inc2 r x hr hge hx hxi
    have hm := notifyPass_dispatched_marked C t inc1 st r hr
    exact notifyPass_dispatches_when_due C t2 inc2 _ r.id t x hx hxi hm hge

/-- Witness for C8 at a concrete input: an id marked at 0 with cooldown 300000
is notifiable again at exactly 300000. -/
theorem watch_cooldown_C8_witness :
    shouldNotify (markNotified wst0 "w" 0) "w" 300000 300000 = true :=
  (watch_cooldown_C8.1 wst0 "w" 0 300000 300000).mpr (by decide)

-- ── C9 ────────────────────────────────────────────────────────────────────

theorem markNotified_lastGc (st : WatchSt) (rid : String) (t : Nat) :
    (markNotified st rid t).lastGc = st.lastGc := rfl

theorem notifyPass_lastGc (C t : Nat) :
    ∀ (inc : List Reminder) (st : WatchSt),
      (notifyPass C t st inc).2.lastGc = st.lastGc
  | [], _ => rfl
  | r :: rest, st => by
    simp only [notifyPass]
    split
    · rw [notifyPass_lastGc C t rest (markNotified st r.id t), markNotified_lastGc]
    · exact notifyPass_lastGc C t rest st

theorem tickBody_lastGc (cenv : CheckEnv) (st : WatchSt) (opts : WatchOptions)
    (nowMs : Nat) (db : Store) :
    (tickBody cenv st opts nowMs db).2.1.lastGc = st.lastGc := by
  unfold tickBody
  exact notifyPass_lastGc _ _ _ _

/-- C9: when maintenance is due in a tick and coreGc throws, the failure is
caught inside the tick: the tick degenerates to exactly the gc-free tick
body (pipeline evaluation and notification dispatch proceed on the
untouched store and state), the last-maintenance timestamp is left
unchanged — so the gc-due test at any later tick is exactly what it would
have been — and the timestamp is advanced (to the tick instant) only when
maintenance succeeds. -/
theorem watch_gc_failure_C9 :
    (∀ cenv st opts nowMs db, gcDue st opts nowMs = true →
      runCheckCycle cenv true st opts nowMs db = tickBody cenv st opts nowMs db) ∧
    (∀ cenv st opts nowMs db, gcDue st opts nowMs = true →
      (runCheckCycle cenv true st opts nowMs db).2.1.lastGc = st.lastGc) ∧
    (∀ cenv st opts nowMs db, gcDue st opts nowMs = true →
      (runCheckCycle cenv false st opts nowMs db).2.1.lastGc = some nowMs) ∧
    (∀ (cenv : CheckEnv) (st : WatchSt) (opts : WatchOptions) (nowMs : Nat)
        (db : Store) (opts2 : WatchOptions) (t2 : Nat), gcDue st opts nowMs = true →
      gcDue (runCheckCycle cenv true st opts nowMs db).2.1 opts2 t2 =
        gcDue st opts2 t2) ∧
    (∀ (cenv : CheckEnv) (st : WatchSt) (opts : WatchOptions) (nowMs : Nat)
        (db : Store) (b : Bool), gcDue st opts nowMs = false →
      runCheckCycle cenv b st opts nowMs db = tickBody cenv st opts nowMs db) := by
  have hkey : ∀ cenv st opts nowMs db, gcDue st opts nowMs = true →
      runCheckCycle cenv true st opts nowMs db = tickBody cenv st opts nowMs db := by
    intro cenv st opts nowMs db hdue
    unfold runCheckCycle gcStep
    rw [if_pos hdue]
    rfl
  refine ⟨hkey, ?_, ?_, ?_, ?_⟩
  · intro cenv st opts nowMs db hdue
    rw [hkey cenv st opts nowMs db hdue]
    exact tickBody_lastGc cenv st opts nowMs db
  · intro cenv st opts nowMs db hdue
    unfold runCheckCycle gcStep
    rw [if_pos hdue]
    show (tickBody cenv { st with lastGc := some nowMs } opts nowMs
      (coreGc nowMs 30 db).1).2.1.lastGc = some nowMs
    rw [tickBody_lastGc]
  · intro cenv st opts nowMs db opts2 t2 hdue
    have h2 : (runCheckCycle cenv true st opts nowMs db).2.1.lastGc = st.lastGc := by
      rw [hkey cenv st opts nowMs db hdue]
      exact tickBody_lastGc cenv st opts nowMs db
    unfold gcDue
    rw [h2]
  · intro cenv st opts nowMs db b hdue
    unfold runCheckCycle gcStep
    rw [if_neg (by simp [hdue])]

/-- Witness for C9 at a concrete input: with maintenance due and coreGc
throwing, the tick leaves the last-maintenance timestamp unchanged. -/
theorem watch_gc_failure_C9_witness :
    (runCheckCycle cenv0 true wst0 {} DEFAULT_GC_INTERVAL_MS stC10).2.1.lastGc =
      wst0.lastGc :=
  watch_gc_failure_C9.2.1 cenv0 wst0 {} DEFAULT_GC_INTERVAL_MS stC10 (by decide)

-- ── C10 ───────────────────────────────────────────────────────────────────

theorem dueOrder_refl (r : Reminder) : dueOrder r r := by
  unfold dueOrder
  omega

theorem queryDueReminder_frame (nowMs : Nat) (agent : String)
    (types : List TriggerType) (s : Store) :
    (queryDueReminder nowMs agent types s).1 = s := by
  unfold queryDueReminder
  split <;> rfl

/-- C10: the blocking wait (checkWatch and its queryDueReminder helper)
never mutates any stored record — the store is identical before and after
every poll and every full run — and when a poll returns a reminder it is a
stored active agent-matching row of a requested trigger type with a non-null
due time at or before the poll instant, minimal for the (priority,
trigger_at) order among all such rows; a poll returns nothing exactly when
no such row exists. -/
theorem checkWatch_readonly_C10 :
    (∀ nowMs agent types s, (queryDueReminder nowMs agent types s).1 = s) ∧
    (∀ agent types polls s, (checkWatchRun agent types polls s).1 = s) ∧
    (∀ nowMs agent types s r,
      (queryDueReminder nowMs agent types s).2 = some r →
      r ∈ s.reminders ∧ r.status = .active ∧ r.agent = agent ∧
        types.contains r.trigger_type = true ∧
        (∃ tv, r.trigger_at = some tv ∧ tv ≤ nowMs) ∧
        (∀ x ∈ s.reminders, x.status = .active → x.agent = agent →
          types.contains x.trigger_type = true →
          ∀ tx, x.trigger_at = some tx → tx ≤ nowMs → dueOrder r x)) ∧
    (∀ nowMs agent types s,
      (queryDueReminder nowMs agent types s).2 = none →
      ∀ x ∈ s.reminders, ¬(x.status = .active ∧ x.agent = agent ∧
        types.contains x.trigger_type = true ∧
        ∃ tx, x.trigger_at = some tx ∧ tx ≤ nowMs)) := by
  have hfilter : ∀ (nowMs : Nat) (agent : String) (types : List TriggerType)
      (x : Reminder),
      (decide (x.status = ReminderStatus.active) && decide (x.agent = agent) &&
        types.contains x.trigger_type && x.trigger_at.isSome &&
        dueLe x.trigger_at nowMs) = true ↔
      (x.status = .active ∧ x.agent = agent ∧ types.contains x.trigger_type = true ∧
        ∃ tx, x.trigger_at = some tx ∧ tx ≤ nowMs) := by
    intro nowMs agent types x
    cases hta : x.trigger_at with
    | none => simp [hta, dueLe]
    | some tv => simp [hta, dueLe, and_assoc]
  refine ⟨queryDueReminder_frame, ?_, ?_, ?_⟩
  · intro agent types polls
    induction polls with
    | nil => intro s; rfl
    | cons t ts ih =>
      intro s
      simp only [checkWatchRun]
      cases hp : (queryDueReminder t agent types s).2 with
      | some r =>
        simp only [hp]
        exact queryDueReminder_frame t agent types s
      | none =>
        simp only [hp]
        rw [ih (queryDueReminder t agent types s).1, queryDueReminder_frame]
  · intro nowMs agent types s r hr
    unfold queryDueReminder at hr
    split at hr
    · exact Option.noConfusion hr
    · dsimp only [] at hr
      have hmemSorted := List.mem_of_mem_head? hr
      have hmemDue := (List.mem_insertionSort dueOrder).mp hmemSorted
      have hprops := (hfilter nowMs agent types r).mp (List.mem_filter.mp hmemDue).2
      refine ⟨(List.mem_filter.mp hmemDue).1, hprops.1, hprops.2.1, hprops.2.2.1,
        hprops.2.2.2, ?_⟩
      intro x hx hst hag hty tx htx htle
      have hxDue : x ∈ s.reminders.filter (fun y =>
          decide (y.status = ReminderStatus.active) && decide (y.agent = agent) &&
          types.contains y.trigger_type && y.trigger_at.isSome &&
          dueLe y.trigger_at nowMs) := by
        refine List.mem_filter.mpr ⟨hx, ?_⟩
        exact (hfilter nowMs agent types x).mpr ⟨hst, hag, hty, tx, htx, htle⟩
      have hxSorted := (List.mem_insertionSort dueOrder).mpr hxDue
      have hsorted := List.sorted_insertionSort dueOrder
        (s.reminders.filter (fun y =>
          decide (y.status = ReminderStatus.active) && decide (y.agent = agent) &&
          types.contains y.trigger_type && y.trigger_at.isSome &&
          dueLe y.trigger_at nowMs))
      cases hc : List.insertionSort dueOrder (s.reminders.filter (fun y =>
          decide (y.status = ReminderStatus.active) && decide (y.agent = agent) &&
          types.contains y.trigger_type && y.trigger_at.isSome &&
          dueLe y.trigger_at nowMs)) with
      | nil =>
        rw [hc] at hr
        exact Option.noConfusion hr
      | cons a rest =>
        rw [hc] at hr hmemSorted hxSorted
        have har : a = r := by
          injection hr
        subst har
        rcases List.mem_cons.mp hxSorted with rfl | hxRest
        · exact dueOrder_refl _
        · rw [hc] at hsorted
          exact List.rel_of_sorted_cons hsorted x hxRest
  · intro nowMs agent types s hnone x hx hcon
    unfold queryDueReminder at hnone
    split at hnone
    · rename_i hempty
      have : types.contains x.trigger_type = false := by
        rw [List.isEmpty_iff.mp hempty]
        rfl
      rw [this] at hcon
      simp at hcon
    · dsimp only [] at hnone
      have hxDue : x ∈ s.reminders.filter (fun y =>
          decide (y.status = ReminderStatus.active) && decide (y.agent = agent) &&
          types.contains y.trigger_type && y.trigger_at.isSome &&
          dueLe y.trigger_at nowMs) :=
        List.mem_filter.mpr ⟨hx, (hfilter nowMs agent types x).mpr hcon⟩
      have hxSorted := (List.mem_insertionSort dueOrder).mpr hxDue
      cases hc : List.insertionSort dueOrder (s.reminders.filter (fun y =>
          decide (y.status = ReminderStatus.active) && decide (y.agent = agent) &&
          types.contains y.trigger_type && y.trigger_at.isSome &&
          dueLe y.trigger_at nowMs)) with
      | nil =>
        rw [hc] at hxSorted
        exact absurd hxSorted (List.not_mem_nil x)
      | cons a rest =>
        rw [hc] at hnone
        exact Option.noConfusion hnone

/-- Witness for C10 at a concrete input: polling the stC10 store returns its
single due reminder and leaves the store untouched. -/
theorem checkWatch_readonly_C10_witness :
    (queryDueReminder 10 "main" [.time] stC10).1 = stC10 ∧
    remC10 ∈ stC10.reminders ∧ remC10.status = .active := by
  have h3 := checkWatch_readonly_C10.2.2.1 10 "main" [.time] stC10 remC10 (by decide)
  exact ⟨checkWatch_readonly_C10.1 10 "main" [.time] stC10, h3.1, h3.2.1⟩

end Agentrem
